import Mathlib

/-!
Verification development for the asynx task-queue core
(`asynx_core/taskqueue.py`).

The Python module is shallowly embedded below.  Conventions used through
the whole file:

* All instants and durations are integer microseconds (the resolution of
  Python's `datetime`/`timedelta`).  The literal `0.5` seconds from the
  source is `500000`.  All instants are UTC: the `pytz` normalisation in
  the `eta`/`last_run_at` setters is the identity here, and the
  `localzone.localize` step of `add_task` is likewise the identity
  (timezone handling is declared out of scope by the specification's
  TimeSource component).
* The ambient clock `utcnow()` is threaded explicitly as a `now`
  argument; one call of an embedded operation uses a single `now`.
* Fallible Python code (raised exceptions) is modelled with `Except Err`;
  state-mutating queue operations return their resulting store alongside
  the `Except` result, so failure paths expose which writes survived.
* The Codec (`_dumps`/`_loads`, an opaque reversible encoding per the
  spec) is modelled as the identity on a typed value universe `Val`.
  ISO-8601 rendering of instants plus `dateutil` parsing (external
  libraries, reversible on UTC instants) is modelled by the dedicated
  constructor `Val.time`, which stands for the ISO string of an instant.
-/

namespace Asynx

/-- Exception taxonomy of the module: `TaskAlreadyExists`, `TaskNotFound`,
`TaskStatusNotMatched`, `TaskCNameRequired`, plus the Python built-in
errors the code can raise (`AttributeError` from reading an unassigned
`__slots__` slot, `KeyError` from a missing dict key, `ValueError` from
`float()`/tuple unpacking, `TypeError` for ill-typed primitive use). -/
inductive Err where
  | alreadyExists
  | notFound
  | statusNotMatched
  | cnameRequired
  | attributeError
  | keyError (field : String)
  | valueError
  | typeError
deriving DecidableEq, Repr

/-- Decidable equality of `Except` results, for concrete evaluations. -/
instance instDecEqExcept {e a : Type} [DecidableEq e] [DecidableEq a] :
    DecidableEq (Except e a)
  | Except.ok x, Except.ok y =>
      if h : x = y then isTrue (by rw [h])
      else isFalse (by intro hh; cases hh; exact h rfl)
  | Except.ok _, Except.error _ => isFalse (fun hh => Except.noConfusion hh)
  | Except.error _, Except.ok _ => isFalse (fun hh => Except.noConfusion hh)
  | Except.error x, Except.error y =>
      if h : x = y then isTrue (by rw [h])
      else isFalse (by intro hh; cases hh; exact h rfl)

/-- Header values that appear in a request `headers` dict: strings,
Python `None`, or an instant rendered by `isoformat()` (represented by
its instant, see the module conventions). -/
inductive HV where
  | str (s : String)
  | none
  | time (t : Int)
deriving DecidableEq, Repr

/-- The `request` dict of a task: `method, url, headers(dict),
payload(string), timeout, allow_redirects(bool)` (`add_task` docstring).
`Option` models presence of the optional keys. -/
structure Request where
  method : String
  url : String
  headers : Option (List (String × HV))
  payload : Option String
  timeout : Option Int
  allow_redirects : Option Bool
deriving DecidableEq, Repr

/-- A sub-task record used as a callback descriptor: the shape
`_dispatch_callback` manipulates before calling `add_task(**kwargs)`.
Only the `request` component is touched by the code path modelled here. -/
structure SubArgs where
  request : Request
deriving DecidableEq, Repr

/-- Callback descriptor: Python `None`, a string (sentinel or URL), or a
sub-task record. -/
inductive Cb where
  | none
  | str (s : String)
  | record (r : SubArgs)
deriving DecidableEq, Repr

/-- Codec-encoded values stored in a meta hash field.  `Val.time t`
stands for the encoded ISO-8601 rendering of instant `t` (reversible per
the spec's Codec/TimeSource contract); `Val.req`/`Val.cb` are the encoded
request dict and callback descriptor. -/
inductive Val where
  | none
  | str (s : String)
  | time (t : Int)
  | req (r : Request)
  | cb (c : Cb)
deriving DecidableEq, Repr

/-- A `__slots__` slot that may be unassigned: reading an unassigned slot
raises `AttributeError`.  Used for the `_eta` slot of `Task`, the only
slot `Task.__init__` can leave unassigned (when `countdown` is falsy but
not `None`). -/
inductive Slot where
  | unset
  | val (v : Option Int)
deriving DecidableEq, Repr

/-- ScheduleSpec: either `celery.schedules.schedule(run_every)` — an
interval, carried as its `run_every` in integer microseconds (the
resolution of the underlying `timedelta`) — or a `celery.schedules.crontab`,
carried as its five `_orig_*` field strings in the order
minute, hour, day_of_month, month_of_year, day_of_week. -/
inductive Sched where
  | interval (micros : Nat)
  | cron (minute hour dayOfMonth monthOfYear dayOfWeek : String)
deriving DecidableEq, Repr

/-! ### Decimal rendering and parsing

`Task._schedule_to_string` formats an interval as
`'every {0.seconds} seconds'`, where `seconds` is a Python float and is
rendered by `str()`.  For floats representing an exact number of
microseconds, `str()` prints the shortest decimal form: positional
(`'2.0'`, `'0.123456'`) when the value is at least `1e-4` seconds, and
scientific (`'5e-05'`) below that.  The helpers below implement exactly
that rendering and the digit arithmetic needed to parse it back. -/

/-- Character for a decimal digit, `'0'`–`'9'`. -/
def digitChar (d : Nat) : Char := Nat.digitChar d

/-- Numeric value of a decimal digit character. -/
def charDigit (c : Char) : Nat := c.toNat - 48

/-- Value of a big-endian list of decimal digits. -/
def digitsToNat (be : List Nat) : Nat := Nat.ofDigits 10 be.reverse

/-- Decimal digit characters of a natural number, most significant
first, as printed by Python `str(int)`. -/
def natStrChars (n : Nat) : List Char :=
  if n = 0 then ['0'] else ((Nat.digits 10 n).reverse).map digitChar

/-- Fractional-part digits printed by Python `str()` for the value
`f / 10^6` with `f < 10^6`: the six zero-padded digits of `f`, trailing
zeros stripped, and `'0'` when nothing remains (Python always prints at
least one fractional digit). -/
def fracStrChars (f : Nat) : List Char :=
  let little := Nat.digits 10 f ++ List.replicate (6 - (Nat.digits 10 f).length) 0
  let strippedLittle := little.dropWhile (· = 0)
  if strippedLittle = [] then ['0'] else (strippedLittle.reverse).map digitChar

/-- Python `str()` of the float nearest to `m / 10^6` (an interval of
`m` microseconds, as produced by `timedelta.total_seconds()`):
scientific notation below `1e-4` seconds, positional otherwise.  The
positional branch renders the exact decimal of `m / 10^6`; this equals
Python's output exactly when `m ≤ 2^33 · 10^6` (then the float's ulp is
below `10^-6`, so the exact 6-fraction-digit decimal is the unique
shortest representation and the float still resolves single
microseconds).  Above that the float coarsens past microsecond
resolution and Python prints a different decimal — for example
`timedelta(microseconds=8590000000000001).total_seconds()` prints
`8590000000.000002` — so this rendering is NOT faithful there;
`Sched.WF` below therefore caps intervals at `2^33` seconds, and no
theorem in this file evaluates the positional branch beyond that cap. -/
def pyFloatStrChars (m : Nat) : List Char :=
  if 0 < m ∧ m < 100 then
    let le := (Nat.digits 10 m).dropWhile (· = 0)
    let ex := 6 + 1 - (Nat.digits 10 m).length
    (match le.reverse with
     | [] => []
     | d :: rest => digitChar d :: (if rest = [] then [] else '.' :: rest.map digitChar))
    ++ ['e', '-', '0', digitChar ex]
  else
    natStrChars (m / 1000000) ++ '.' :: fracStrChars (m % 1000000)

/-! ### ScheduleSpec string forms

`Task._schedule_to_string` / `Task._schedule_from_string`, including a
direct model of the regex
`every\s*(\d+\.?\d*|\d*\.?\d+)\s*seconds?` used with `re.match` (anchored
at position 0) and `re.sub` (global leftmost replacement by group 1).
The pattern is deterministic under greedy matching: each greedy
repetition is followed by a token it cannot overlap with, so no
backtracking is needed. -/

/-- Characters matched by the regex class `\s`. -/
def isSpaceChar (c : Char) : Bool :=
  c = ' ' ∨ c = '\t' ∨ c = '\n' ∨ c = '\x0d' ∨ c = '\x0b' ∨ c = '\x0c'

/-- Consume an exact literal from the front of the input. -/
def matchLit : List Char → List Char → Option (List Char)
  | [], cs => some cs
  | _ :: _, [] => Option.none
  | l :: ls, c :: cs => if c = l then matchLit ls cs else Option.none

/-- Match the group `(\d+\.?\d*|\d*\.?\d+)` at the front of the input,
returning the matched characters and the rest. -/
def matchNum (cs : List Char) : Option (List Char × List Char) :=
  let ds1 := cs.takeWhile Char.isDigit
  let r1 := cs.dropWhile Char.isDigit
  if ds1 = [] then
    match r1 with
    | '.' :: r2 =>
        let ds2 := r2.takeWhile Char.isDigit
        if ds2 = [] then Option.none
        else some ('.' :: ds2, r2.dropWhile Char.isDigit)
    | _ => Option.none
  else
    match r1 with
    | '.' :: r2 =>
        let ds2 := r2.takeWhile Char.isDigit
        some (ds1 ++ '.' :: ds2, r2.dropWhile Char.isDigit)
    | _ => some (ds1, r1)

/-- Attempt the schedule pattern at the front of the input; on success
return the captured number group and the remaining characters. -/
def schedMatchAt (cs : List Char) : Option (List Char × List Char) :=
  match matchLit ['e', 'v', 'e', 'r', 'y'] cs with
  | Option.none => Option.none
  | some r =>
      match matchNum (r.dropWhile isSpaceChar) with
      | Option.none => Option.none
      | some (g, r) =>
          match matchLit ['s', 'e', 'c', 'o', 'n', 'd'] (r.dropWhile isSpaceChar) with
          | Option.none => Option.none
          | some r =>
              match r with
              | 's' :: t => some (g, t)
              | _ => some (g, r)

/-- One pass of `re.sub`: replace every (leftmost, non-overlapping) match
of the schedule pattern by its group 1.  `fuel` bounds the scan; every
step consumes at least one character, so `cs.length + 1` suffices. -/
def schedSubAux : Nat → List Char → List Char
  | 0, cs => cs
  | _, [] => []
  | fuel + 1, c :: t =>
      match schedMatchAt (c :: t) with
      | some (g, rest) => g ++ schedSubAux fuel rest
      | Option.none => c :: schedSubAux fuel t

/-- The model of `Task._sched_pattern.sub('\g<1>', text)`. -/
def schedSub (cs : List Char) : List Char := schedSubAux (cs.length + 1) cs

/-- Parse the decimal literals accepted by Python `float()` that the
schedule path can produce: `digits`, `digits.`, `.digits` or
`digits.digits` (no sign, exponent or special forms, which never reach
this call on schedule strings).  Returns integer part and fraction
digits. -/
def parseNumeral (cs : List Char) : Option (Nat × List Nat) :=
  let ds1 := cs.takeWhile Char.isDigit
  let r1 := cs.dropWhile Char.isDigit
  match r1 with
  | [] => if ds1 = [] then Option.none else some (digitsToNat (ds1.map charDigit), [])
  | '.' :: r2 =>
      let ds2 := r2.takeWhile Char.isDigit
      if r2.dropWhile Char.isDigit = [] ∧ ¬(ds1 = [] ∧ ds2 = []) then
        some (digitsToNat (ds1.map charDigit), ds2.map charDigit)
      else Option.none
  | _ => Option.none

/-- Microseconds denoted by an integer part and fraction digits.  Beyond
six fraction digits `timedelta(seconds=...)` rounds to microsecond
resolution (ties modelled upward; unreachable from strings this module
itself produces). -/
def numeralMicros (ip : Nat) (fp : List Nat) : Nat :=
  let k := fp.length
  if k ≤ 6 then ip * 1000000 + digitsToNat fp * 10 ^ (6 - k)
  else ip * 1000000 + (digitsToNat fp * 1000000 * 2 + 10 ^ k) / (2 * 10 ^ k)

/-- Python `str.split()`: split on runs of whitespace, dropping leading
and trailing whitespace. -/
def splitWS : List Char → List (List Char)
  | [] => []
  | c :: t =>
      if isSpaceChar c then splitWS t
      else
        (c :: t.takeWhile (fun x => ¬ isSpaceChar x)) ::
          splitWS (t.dropWhile (fun x => ¬ isSpaceChar x))
termination_by cs => cs.length
decreasing_by
  · simp
  · simp only [List.length_cons]
    exact Nat.lt_succ_of_le (List.dropWhile_sublist _).length_le

/-- Model of `Task._schedule_to_string`. -/
def schedToStringChars : Sched → List Char
  | Sched.cron m h dom mon dow =>
      m.data ++ ' ' :: h.data ++ ' ' :: dom.data ++ ' ' :: mon.data ++ ' ' :: dow.data
  | Sched.interval m =>
      ['e', 'v', 'e', 'r', 'y', ' '] ++ pyFloatStrChars m ++
        [' ', 's', 'e', 'c', 'o', 'n', 'd', 's']

/-- Model of `Task._schedule_to_string` at `String` type. -/
def schedToString (sc : Sched) : String := ⟨schedToStringChars sc⟩

/-- Model of `Task._schedule_from_string`: if the regex matches at the
start, substitute group 1 and parse the result with `float()` (a
non-numeral raises `ValueError`); otherwise split into exactly five
cron fields (any other count raises `ValueError` at tuple unpacking). -/
def schedFromString (s : String) : Except Err Sched :=
  let cs := s.data
  match schedMatchAt cs with
  | some _ =>
      match parseNumeral (schedSub cs) with
      | some (ip, fp) => Except.ok (Sched.interval (numeralMicros ip fp))
      | Option.none => Except.error Err.valueError
  | Option.none =>
      match splitWS cs with
      | [m, h, dom, mon, dow] =>
          Except.ok (Sched.cron ⟨m⟩ ⟨h⟩ ⟨dom⟩ ⟨mon⟩ ⟨dow⟩)
      | _ => Except.error Err.valueError

/-- Characters of standard (numeric) cron field syntax.  No whitespace,
and in particular not the letter `'e'`: a formatted cron line can
therefore never match the interval regex. -/
def cronCharOK (c : Char) : Bool :=
  c.isDigit ∨ c = '*' ∨ c = ',' ∨ c = '-' ∨ c = '/'

/-- Well-formed supported schedules: an interval of at least `1e-4`
seconds (below that Python renders the float scientifically and the
regex rejects the string, see `pyFloatStrChars`) and at most `2^33`
seconds = `8589934592000000` µs (above that `total_seconds()` loses
microsecond precision and the formatted string reparses to a different
schedule, e.g. `8590000000000001` µs formats as
`every 8590000000.000002 seconds`), or a cron whose five fields are
nonempty and use standard numeric cron syntax. -/
def Sched.WF : Sched → Prop
  | Sched.interval m => 100 ≤ m ∧ m ≤ 8589934592000000
  | Sched.cron m h dom mon dow =>
      ∀ f ∈ [m, h, dom, mon, dow], f.data ≠ [] ∧ ∀ c ∈ f.data, cronCharOK c

instance : DecidablePred Sched.WF := fun sc => by
  cases sc <;> (unfold Sched.WF; infer_instance)

/-! ### The Task object -/

/-- In-memory `Task` object (`__slots__` holds `request, id, uuid, cname,
_eta, schedule, _last_run_at, status, on_success, on_failure,
on_complete`; the `_taskqueue` back reference is passed explicitly where
needed).  `etaSlot` is the `_eta` slot, the only slot the constructor can
leave unassigned. -/
structure Task where
  request : Request
  id : Option Nat
  uuid : Option String
  cname : Option String
  etaSlot : Slot
  schedule : Option Sched
  last_run_at : Option Int
  status : String
  on_success : Cb
  on_failure : Cb
  on_complete : Cb
deriving DecidableEq, Repr

/-- Model of `Task.__init__`.  The `countdown` setter ignores falsy
values (`None` or `0`), so with `countdown = some 0` the `_eta` slot is
never assigned (the constructor also skips the `eta` assignment because
`countdown is None` is false); with a truthy countdown the setter stores
`utcnow() + timedelta(seconds=countdown)`; with `countdown = none` the
constructor assigns the (UTC-normalised) `eta` argument. -/
def Task.init (now : Int) (request : Request) (id : Option Nat)
    (uuid : Option String) (cname : Option String) (countdown : Option Int)
    (eta : Option Int) (schedule : Option Sched) (last_run_at : Option Int)
    (status : String) (on_success : Cb) (on_failure : Cb) (on_complete : Cb) :
    Task :=
  { request := request
    id := id
    uuid := uuid
    cname := cname
    etaSlot :=
      match countdown with
      | Option.none => Slot.val eta
      | some c => if c = 0 then Slot.unset else Slot.val (some (now + c))
    schedule := schedule
    last_run_at := last_run_at
    status := status
    on_success := on_success
    on_failure := on_failure
    on_complete := on_complete }

/-- The `eta` property getter: reading an unassigned `_eta` slot raises
`AttributeError`. -/
def Task.eta (t : Task) : Except Err (Option Int) :=
  match t.etaSlot with
  | Slot.unset => Except.error Err.attributeError
  | Slot.val v => Except.ok v

/-- The `countdown` property getter: `eta - utcnow()` when `eta` is set,
`None` otherwise (implicit return). -/
def Task.countdown (now : Int) (t : Task) : Except Err (Option Int) := do
  match ← t.eta with
  | some e => pure (some (e - now))
  | Option.none => pure Option.none

/-- The task view returned to clients (`Task.to_dict`). -/
structure TaskView where
  request : Request
  id : Option Nat
  uuid : Option String
  cname : Option String
  countdown : Option Int
  eta : Option Int
  schedule : Option Sched
  last_run_at : Option Int
  status : String
  on_success : Cb
  on_failure : Cb
  on_complete : Cb
deriving DecidableEq, Repr

/-- Model of `Task.to_dict`: a snapshot view; `countdown` is recomputed
from `eta` at read time and both reads raise `AttributeError` when the
`_eta` slot is unassigned. -/
def Task.to_dict (now : Int) (t : Task) : Except Err TaskView := do
  let cd ← Task.countdown now t
  let e ← t.eta
  pure
    { request := t.request
      id := t.id
      uuid := t.uuid
      cname := t.cname
      countdown := cd
      eta := e
      schedule := t.schedule
      last_run_at := t.last_run_at
      status := t.status
      on_success := t.on_success
      on_failure := t.on_failure
      on_complete := t.on_complete }

/-- Encoding helpers for the meta hash (`_dumps` of each `to_dict` value;
optional strings encode `None` or the string). -/
def encOptStr : Option String → Val
  | Option.none => Val.none
  | some s => Val.str s

/-- Encoding of an optional instant: `None`, or `isoformat()` then
`_dumps` (represented by `Val.time`). -/
def encOptTime : Option Int → Val
  | Option.none => Val.none
  | some t => Val.time t

/-- Model of `Task._to_redis`: the `to_dict` snapshot with `id` popped
out and `countdown` dropped (never stored), `eta`/`last_run_at` rendered
with `isoformat()`, `schedule` rendered with `_schedule_to_string`, and
every remaining value Codec-encoded. -/
def Task.to_redis (now : Int) (t : Task) :
    Except Err (Option Nat × List (String × Val)) := do
  let d ← Task.to_dict now t
  pure (d.id,
    [("request", Val.req d.request),
     ("uuid", encOptStr d.uuid),
     ("cname", encOptStr d.cname),
     ("eta", encOptTime d.eta),
     ("schedule",
       match d.schedule with
       | Option.none => Val.none
       | some sc => Val.str (schedToString sc)),
     ("last_run_at", encOptTime d.last_run_at),
     ("status", Val.str d.status),
     ("on_success", Val.cb d.on_success),
     ("on_failure", Val.cb d.on_failure),
     ("on_complete", Val.cb d.on_complete)])

/-- Direct `task_dict[key]` access: a missing key raises `KeyError`. -/
def dictGet (d : List (String × Val)) (k : String) : Except Err Val :=
  match d.lookup k with
  | some v => Except.ok v
  | Option.none => Except.error (Err.keyError k)

/-- Decode a stored optional-string field (`uuid`, `cname`, `status`
holds a plain string).  A value of an unexpected shape is rejected with
`TypeError` (such hashes are never written by this module). -/
def decOptStr : Val → Except Err (Option String)
  | Val.none => Except.ok Option.none
  | Val.str s => Except.ok (some s)
  | _ => Except.error Err.typeError

/-- Decode a stored optional instant: `dateutil.parser.parse` of the ISO
rendering. -/
def decOptTime : Val → Except Err (Option Int)
  | Val.none => Except.ok Option.none
  | Val.time t => Except.ok (some t)
  | _ => Except.error Err.typeError

/-- Decode a stored callback descriptor. -/
def decCb : Val → Except Err Cb
  | Val.none => Except.ok Cb.none
  | Val.str s => Except.ok (Cb.str s)
  | Val.cb c => Except.ok c
  | _ => Except.error Err.typeError

/-- The decoded keyword arguments extracted from a stored meta row:
what `Task._from_redis` passes to `Task.from_dict` after its
transformations. -/
structure MetaArgs where
  request : Request
  uuid : Option String
  cname : Option String
  eta : Option Int
  schedule : Option Sched
  last_run_at : Option Int
  status : String
  on_success : Cb
  on_failure : Cb
  on_complete : Cb
deriving DecidableEq, Repr

/-- Decoding part of `Task._from_redis` / `Task.from_dict`: decode every
field, parse `eta`, `schedule` and `last_run_at` (accessed directly, so
a missing key raises `KeyError` — in particular on an empty hash); keys
absent from the hash fall back to the `__init__` defaults and unknown
keys are discarded.  `request` is the only required argument
(`TypeError` when missing). -/
def Task.decode_meta (d : List (String × Val)) : Except Err MetaArgs := do
  let etaV ← dictGet d "eta"
  let schedV ← dictGet d "schedule"
  let lraV ← dictGet d "last_run_at"
  let eta ← decOptTime etaV
  let sched ←
    match ← decOptStr schedV with
    | Option.none => pure Option.none
    | some s => do pure (some (← schedFromString s))
  let lra ← decOptTime lraV
  let request ←
    match d.lookup "request" with
    | some (Val.req r) => pure r
    | some _ => Except.error Err.typeError
    | Option.none => Except.error Err.typeError
  let uuid ←
    match d.lookup "uuid" with
    | some v => decOptStr v
    | Option.none => pure Option.none
  let cname ←
    match d.lookup "cname" with
    | some v => decOptStr v
    | Option.none => pure Option.none
  let status ←
    match d.lookup "status" with
    | some (Val.str s) => pure s
    | some _ => Except.error Err.typeError
    | Option.none => pure "new"
  let on_success ←
    match d.lookup "on_success" with
    | some v => decCb v
    | Option.none => pure Cb.none
  let on_failure ←
    match d.lookup "on_failure" with
    | some v => decCb v
    | Option.none => pure (Cb.str "__report__")
  let on_complete ←
    match d.lookup "on_complete" with
    | some v => decCb v
    | Option.none => pure Cb.none
  pure { request := request, uuid := uuid, cname := cname, eta := eta,
         schedule := sched, last_run_at := lra, status := status,
         on_success := on_success, on_failure := on_failure,
         on_complete := on_complete }

/-- Model of `Task._from_redis`: decode the row, then build the task via
`__init__` with `id` set from the row key and no `countdown`. -/
def Task.from_redis (now : Int) (task_id : Nat) (d : List (String × Val)) :
    Except Err Task := do
  let a ← Task.decode_meta d
  pure (Task.init now a.request (some task_id) a.uuid a.cname Option.none
    a.eta a.schedule a.last_run_at a.status a.on_success a.on_failure
    a.on_complete)

/-! ### The store

One `TaskQueue` owns the key space of a fixed `(appname, queuename)`
pair, so the keys are modelled by their varying component: the `AX:INC`
hash field is the single counter `inc`, `AX:META:A:Q:<id>` is `meta`
keyed by id, `AX:CNAME:A:Q:<cname>` is `cname` keyed by cname,
`AX:UUID:A:Q` is the member/score list `uuidIdx`, and `AX:SC:A:Q` is the
member list `sched` (all scores there are the placeholder 0).

This queue targets redis-py 2.x (visible in the legacy
`zadd(key, score, member)` argument order), whose connection layer
encodes arbitrary member objects with `str()`; a `None` uuid therefore
becomes the member string `"None"`, see `encMember`. -/
structure Store where
  inc : Nat
  meta : Nat → Option (List (String × Val))
  cname : String → Option Nat
  uuidIdx : List (String × Nat)
  sched : List Nat

/-- Member encoding of an optional uuid (redis-py 2.x `str()` encoding:
Python `None` encodes as the string `"None"`). -/
def encMember : Option String → String
  | some u => u
  | Option.none => "None"

/-- Sorted-set `ZADD`: replace any existing entry for the member, then
add with the given score. -/
def zadd (l : List (String × Nat)) (score : Nat) (member : String) :
    List (String × Nat) :=
  l.filter (fun e => e.1 ≠ member) ++ [(member, score)]

/-- Sorted-set `ZREM`. -/
def zrem (l : List (String × Nat)) (member : String) : List (String × Nat) :=
  l.filter (fun e => e.1 ≠ member)

/-- Sorted-set `ZSCORE`: score of a member, if present. -/
def zscore (l : List (String × Nat)) (member : String) : Option Nat :=
  l.lookup member

/-- Entries of the uuid index in `ZRANGE` order: ascending score, ties
broken lexicographically by member. -/
def zsorted (l : List (String × Nat)) : List (String × Nat) :=
  let le : String × Nat → String × Nat → Prop := fun a b =>
    a.2 < b.2 ∨ (a.2 = b.2 ∧ a.1 ≤ b.1)
  l.insertionSort (fun a b => decide (le a b))

/-- Redis `ZRANGE key start stop WITHSCORES` over the uuid index
(`start ≥ 0`; a negative `stop` counts from the end, as used when
`per_pipeline = 0` makes `offset + per_pipeline - 1` negative). -/
def zrangeWithScores (l : List (String × Nat)) (start : Nat) (stop : Int) :
    List (String × Nat) :=
  let sorted := zsorted l
  let stopIdx : Int := if stop < 0 then sorted.length + stop else stop
  if stopIdx < start then []
  else (sorted.take (stopIdx.toNat + 1)).drop start

/-- Hash field update (`HMSET` on selected fields): replace the value of
each given field, appending fields that were absent. -/
def hset (d : List (String × Val)) (k : String) (v : Val) :
    List (String × Val) :=
  if (d.lookup k).isSome then d.map (fun e => if e.1 = k then (k, v) else e)
  else d ++ [(k, v)]

/-- Pointwise map update. -/
def setFun {α : Type} [DecidableEq α] {β : Type} (f : α → β) (a : α) (b : β) :
    α → β :=
  fun x => if x = a then b else f x

/-! ### TaskQueue operations -/

namespace TaskQueue

/-- Model of `TaskQueue._update_status`.  The helper
`redis.transaction(..., value_from_callable=True)` retries on `WATCH`
conflicts until the callable runs to completion, so the operation
linearises: read `status` (decoding `None` raises `TypeError` when the
row or field is missing), fail with `TaskStatusNotMatched` unless it is
one of `ensure_previous`, else write `status := next_status` and
`last_run_at := now`.  The callable returns the `now` it used, but the
method body never returns the transaction helper's value, so the
method's own result is Python `None` — modelled by the constant
`Option.none` in the `Except.ok` payload. -/
def update_status (s : Store) (now : Int) (task_id : Nat)
    (next_status : String) (ensure_previous : List String) :
    Store × Except Err (Option Int) :=
  match s.meta task_id with
  | Option.none => (s, Except.error Err.typeError)
  | some d =>
      match d.lookup "status" with
      | Option.none => (s, Except.error Err.typeError)
      | some previous =>
          if ensure_previous.any (fun p => previous = Val.str p) then
            let d := hset (hset d "status" (Val.str next_status))
              "last_run_at" (Val.time now)
            ({ s with meta := setFun s.meta task_id (some d) },
             Except.ok Option.none)
          else (s, Except.error Err.statusNotMatched)

/-- Model of `TaskQueue._get_task`: `HGETALL` of the meta row (an empty
result means the task does not exist) decoded by `Task._from_redis`. -/
def get_task_impl (s : Store) (now : Int) (task_id : Nat) :
    Except Err Task :=
  match s.meta task_id with
  | Option.none => Except.error Err.notFound
  | some d =>
      if d = [] then Except.error Err.notFound
      else Task.from_redis now task_id d

/-- Model of `TaskQueue._get_task_by_uuid`: `ZSCORE` on the uuid index;
a missing member — or a score of `0`, which is falsy — raises
`TaskNotFound`, otherwise the id is loaded with `_get_task`. -/
def get_task_by_uuid_impl (s : Store) (now : Int) (uuid : String) :
    Except Err Task :=
  match zscore s.uuidIdx uuid with
  | Option.none => Except.error Err.notFound
  | some task_id =>
      if task_id = 0 then Except.error Err.notFound
      else get_task_impl s now task_id

/-- Model of `TaskQueue._get_task_by_cname`: `GET` on the cname key (a
missing key raises `TaskNotFound`; any stored byte string is truthy),
then `_get_task`. -/
def get_task_by_cname_impl (s : Store) (now : Int) (cn : String) :
    Except Err Task :=
  match s.cname cn with
  | Option.none => Except.error Err.notFound
  | some task_id => get_task_impl s now task_id

/-- Model of `TaskQueue._delete_task`: one retried `WATCH` transaction
deleting the meta row, removing the uuid from the index, deleting the
cname key when the task has a cname, and removing the id from the
schedule index when it has a schedule. -/
def delete_task_impl (s : Store) (t : Task) : Store :=
  let s :=
    match t.id with
    | some i => { s with meta := setFun s.meta i Option.none,
                         sched := if t.schedule.isSome
                                  then s.sched.filter (fun j => j ≠ i)
                                  else s.sched }
    | Option.none => s
  let s := { s with uuidIdx := zrem s.uuidIdx (encMember t.uuid) }
  match t.cname with
  | some cn => { s with cname := setFun s.cname cn Option.none }
  | Option.none => s

/-- Model of `TaskQueue.delete_task`: load by id, refuse with
`TaskStatusNotMatched` when the status is `running`, else delete. -/
def delete_task (s : Store) (now : Int) (task_id : Nat) :
    Store × Except Err Unit :=
  match get_task_impl s now task_id with
  | Except.error e => (s, Except.error e)
  | Except.ok t =>
      if t.status = "running" then (s, Except.error Err.statusNotMatched)
      else (delete_task_impl s t, Except.ok ())

/-- Model of `TaskQueue.delete_task_by_uuid`: resolve by uuid, then
delete — with no check of the `running` status. -/
def delete_task_by_uuid (s : Store) (now : Int) (uuid : String) :
    Store × Except Err Unit :=
  match get_task_by_uuid_impl s now uuid with
  | Except.error e => (s, Except.error e)
  | Except.ok t => (delete_task_impl s t, Except.ok ())

/-- Model of `TaskQueue.delete_task_by_cname`: resolve by cname, then
delete — with no check of the `running` status. -/
def delete_task_by_cname (s : Store) (now : Int) (cn : String) :
    Store × Except Err Unit :=
  match get_task_by_cname_impl s now cn with
  | Except.error e => (s, Except.error e)
  | Except.ok t => (delete_task_impl s t, Except.ok ())

end TaskQueue

/-! ### Submission to the DelayedExecutor and `add_task`

`Task.apply_async` submits to the celery broker (the spec's opaque
DelayedExecutor).  The environment record below carries the inputs the
broker side supplies: the submission id that becomes the task's new
uuid, whether a concurrent writer touched the `WATCH`ed cname key of an
`add_task` before its `EXEC` (triggering `WatchError`), and the next
cron fire instant (computed by celery's crontab code, external to this
module; interval `is_due` follows the spec's formula for
`celery.schedules.schedule`). -/
structure Env where
  now : Int
  conflict : Bool
  subUuid : String
  cronNext : Int

/-- Modelled from the spec: `ScheduleSpec.is_due(ref)` of the external
celery schedule classes.  For `every N seconds`:
`(ref + N ≤ now, max(0, ref + N − now))`; for cron:
`(now ≥ next_fire(ref), next_fire(ref) − now)` with `next_fire` supplied
by the environment. -/
def Sched.is_due (env : Env) (sc : Sched) (ref : Int) : Bool × Int :=
  match sc with
  | Sched.interval m => (ref + m ≤ env.now, max 0 (ref + m - env.now))
  | Sched.cron _ _ _ _ _ => (env.cronNext ≤ env.now, env.cronNext - env.now)

/-- Model of `Task.apply_async(last_run_at)`: choose the submission
delay, possibly move the status to `scheduled`/`delayed` (only when the
delay exceeds 0.5 s = 500000 µs), and set `uuid` to the submission id.
The `500000` literals are the source's `0.5` seconds. -/
def Task.apply_async (env : Env) (t : Task) (last_run_at : Int) :
    Except Err Task := do
  let t' ←
    match t.schedule with
    | some sc =>
        let (isDue, remaining) := Sched.is_due env sc last_run_at
        if isDue then pure t
        else if remaining > 500000 then pure { t with status := "scheduled" }
        else pure t
    | Option.none => do
        match ← t.eta with
        | Option.none => pure t
        | some e =>
            let cd := e - env.now
            if cd ≤ 0 then pure t
            else if cd > 500000 then pure { t with status := "delayed" }
            else pure t
  pure { t' with uuid := some env.subUuid }

namespace TaskQueue

/-- Model of `TaskQueue._dispatch_task`: hand the task to the executor
via `apply_async` (with `task.last_run_at or utcnow()` as reference),
then pipeline `HMSET uuid,status`, `ZREM` of the old uuid (when one was
set) and `ZADD` of the new uuid with the id as score.  An unassigned
`id` cannot occur on this path and is mapped to `TypeError`. -/
def dispatch_task_impl (s : Store) (env : Env) (t : Task) :
    Store × Except Err Task :=
  match t.id with
  | Option.none => (s, Except.error Err.typeError)
  | some idx =>
      let old_uuid := t.uuid
      match Task.apply_async env t (t.last_run_at.getD env.now) with
      | Except.error e => (s, Except.error e)
      | Except.ok t' =>
          let d := (s.meta idx).getD []
          let d := hset (hset d "uuid" (encOptStr t'.uuid))
            "status" (Val.str t'.status)
          let idx' :=
            match old_uuid with
            | some u => zrem s.uuidIdx u
            | Option.none => s.uuidIdx
          ({ s with meta := setFun s.meta idx (some d),
                    uuidIdx := zadd idx' idx (encMember t'.uuid) },
           Except.ok t')

/-- Model of `TaskQueue.add_task`.  The store effects follow the source
order exactly: the cname existence check runs under `WATCH` before
anything is written; `HINCRBY` on the id counter is issued on the main
connection, outside the queued `MULTI`, so it takes effect immediately;
the cname write, meta write and schedule-index insert are queued and
commit atomically at `EXEC`; a `WatchError` at `EXEC` (a concurrent
writer touched the cname key) discards the queued writes — but not the
counter increment — and surfaces as `TaskAlreadyExists`; an exception
while building the row (`_to_redis`) likewise leaves the counter
incremented and nothing else.  On success the task is handed to
`_dispatch_task` and the returned view is `task.to_dict()`.
(The source's `if task.cname:` tests string truthiness; cnames are
modelled as `Option String` with any present string counting as set, so
the model is faithful for nonempty cnames.) -/
def add_task (s : Store) (env : Env) (request : Request)
    (cname : Option String) (countdown : Option Int) (eta : Option Int)
    (schedule : Option Sched) (on_success : Cb) (on_failure : Cb)
    (on_complete : Cb) : Store × Except Err TaskView :=
  if schedule.isSome ∧ cname.isNone then (s, Except.error Err.cnameRequired)
  else
    let task := Task.init env.now request Option.none Option.none cname
      countdown eta schedule Option.none "new" on_success on_failure
      on_complete
    let taken :=
      match task.cname with
      | some cn => (s.cname cn).isSome
      | Option.none => false
    if taken then (s, Except.error Err.alreadyExists)
    else
      let idx := s.inc + 1
      let s1 := { s with inc := idx }
      let task := { task with id := some idx }
      match Task.to_redis env.now task with
      | Except.error e => (s1, Except.error e)
      | Except.ok (_, task_dict) =>
          if task.cname.isSome ∧ env.conflict then
            (s1, Except.error Err.alreadyExists)
          else
            let s2 :=
              { s1 with
                cname :=
                  match task.cname with
                  | some cn => setFun s1.cname cn (some idx)
                  | Option.none => s1.cname
                meta := setFun s1.meta idx (some task_dict)
                sched :=
                  if task.schedule.isSome then s1.sched ++ [idx]
                  else s1.sched }
            match dispatch_task_impl s2 env task with
            | (s3, Except.error e) => (s3, Except.error e)
            | (s3, Except.ok t') =>
                match Task.to_dict env.now t' with
                | Except.error e => (s3, Except.error e)
                | Except.ok v => (s3, Except.ok v)

/-- Model of the loop body of `TaskQueue.iter_tasks`, fully consumed (as
`list(...)` would).  `HGETALL` of a missing meta row returns an empty
hash — never Python `None` — so the generator's `if task_dict is None:
continue` guard can never fire; the empty dict then reaches
`Task._from_redis`, where `task_dict['eta']` raises `KeyError`.  `fuel`
bounds the pagination loop; each productive round advances `offset` by
`per_pipeline ≥ 1`, so `uuidIdx.length + 1` rounds suffice. -/
def iter_tasks_aux (s : Store) (now : Int) (per_pipeline : Nat) :
    Nat → Nat → Except Err (List TaskView)
  | 0, _ => Except.ok []
  | fuel + 1, offset => do
      let result := zrangeWithScores s.uuidIdx offset
        (offset + per_pipeline - 1 : Int)
      if result = [] then pure []
      else
        let rows := result.map (fun e => (e.2, some ((s.meta e.2).getD [])))
        let views ← rows.mapM (fun r =>
          match r.2 with
          | Option.none => pure Option.none
          | some d => do
              pure (some (← Task.to_dict now (← Task.from_redis now r.1 d))))
        let views := views.filterMap id
        if result.length < per_pipeline then pure views
        else do
          pure (views ++ (← iter_tasks_aux s now per_pipeline fuel
            (offset + per_pipeline)))

/-- Model of `TaskQueue.iter_tasks`. -/
def iter_tasks (s : Store) (now : Int) (offset per_pipeline : Nat) :
    Except Err (List TaskView) :=
  iter_tasks_aux s now per_pipeline (s.uuidIdx.length + 1) offset

end TaskQueue

/-! ### Dispatch -/

/-- Model of the prefix of `Task.dispatch` up to the HTTP call (the
HTTPFetcher and the callback firing that follow are the spec's external
collaborators): acquire the running slot with
`_update_status(id, 'running', 'new', 'scheduled', 'delayed')` — note
the allowed previous statuses as literally passed by the source — then
update the in-memory task with `status := 'running'` and `last_run_at :=
<the value _update_status returned>`. -/
def Task.dispatchAcquire (s : Store) (now : Int) (t : Task) :
    Store × Except Err Task :=
  match t.id with
  | Option.none => (s, Except.error Err.typeError)
  | some idx =>
      match TaskQueue.update_status s now idx "running"
        ["new", "scheduled", "delayed"] with
      | (s', Except.error e) => (s', Except.error e)
      | (s', Except.ok returned) =>
          (s', Except.ok { t with status := "running",
                                  last_run_at := returned })

/-- Lowercase prefix test for `method.lower().startswith('http')`. -/
def startsWithHTTP (s : String) : Bool :=
  match s.data.map Char.toLower with
  | 'h' :: 't' :: 't' :: 'p' :: _ => true
  | _ => false

/-- Dict update over a headers dict (`dict.update`): replace the value
of a present key in place, append an absent one. -/
def hdrSet : List (String × HV) → String → HV → List (String × HV)
  | [], k, v => [(k, v)]
  | e :: t, k, v => if e.1 = k then (k, v) :: t else e :: hdrSet t k v

/-- Header injection of the chained-task branch of
`Task._dispatch_callback` (factored out for the URL and record cases). -/
def Task.chain_headers (t : Task) (payload : String) (r : SubArgs) :
    Except Err (Option SubArgs) := do
  let e ← t.eta
  let hd := r.request.headers.getD []
  let hd := hdrSet hd "X-Asynx-Chained" (HV.str t.request.url)
  let hd := hdrSet hd "X-Asynx-Chained-TaskUUID"
    (match t.uuid with
     | some u => HV.str u
     | Option.none => HV.none)
  let hd := hdrSet hd "X-Asynx-Chained-TaskETA"
    (match e with
     | some x => HV.time x
     | Option.none => HV.str "-")
  let hd :=
    match t.cname with
    | some cn => hdrSet hd "X-Asynx-Chained-taskCName" (HV.str cn)
    | Option.none => hd
  let req' := { r.request with headers := some hd, payload := some payload }
  pure (some { request := req' })

/-- Model of `Task._dispatch_callback` up to (and excluding) the final
`add_task` call: compute the sub-task record that would be submitted.
`'__report__'` goes to the report sink and any other descriptor that is
neither an http(s) URL string nor a record is a silent no-op — both
yield `none`.  A URL string is rewritten to `{request: {method: POST,
url: ...}}`; a record is (deep-)copied, `request.headers` is created if
absent, the chain headers are injected — the cname header under the key
`'X-Asynx-Chained-taskCName'` exactly as spelled in the source — and
`request.payload` is set to the encoded response. -/
def Task.dispatch_callback_args (t : Task) (payload : String) (method : Cb) :
    Except Err (Option SubArgs) :=
  match method with
  | Cb.none => Except.ok Option.none
  | Cb.record r => Task.chain_headers t payload r
  | Cb.str u =>
      if u = "__report__" then Except.ok Option.none
      else if startsWithHTTP u then
        Task.chain_headers t payload
          { request := { method := "POST", url := u, headers := Option.none,
                         payload := Option.none, timeout := Option.none,
                         allow_redirects := Option.none } }
      else Except.ok Option.none

/-! ### Concrete fixtures used by the concrete evaluations below -/

/-- A minimal request dict. -/
def reqEx : Request :=
  { method := "GET", url := "http://x", headers := Option.none,
    payload := Option.none, timeout := Option.none,
    allow_redirects := Option.none }

/-- A well-formed stored meta row with the given status. -/
def metaRowEx (status : String) : List (String × Val) :=
  [("request", Val.req reqEx), ("uuid", Val.str "u1"), ("cname", Val.none),
   ("eta", Val.none), ("schedule", Val.none), ("last_run_at", Val.none),
   ("status", Val.str status), ("on_success", Val.cb Cb.none),
   ("on_failure", Val.cb (Cb.str "__report__")),
   ("on_complete", Val.cb Cb.none)]

/-- A store holding exactly task 1 (meta row `metaRowEx status`, uuid
index entry `u1`, cname key `ca`). -/
def storeEx (status : String) : Store :=
  { inc := 1,
    meta := fun i => if i = 1 then some (metaRowEx status) else Option.none,
    cname := fun c => if c = "ca" then some 1 else Option.none,
    uuidIdx := [("u1", 1)], sched := [] }

/-- The in-memory task corresponding to `metaRowEx status` at id 1. -/
def taskEx (status : String) : Task :=
  { request := reqEx, id := some 1, uuid := some "u1", cname := Option.none,
    etaSlot := Slot.val Option.none, schedule := Option.none,
    last_run_at := Option.none, status := status, on_success := Cb.none,
    on_failure := Cb.str "__report__", on_complete := Cb.none }

/-- The empty store. -/
def store0 : Store :=
  { inc := 0, meta := fun _ => Option.none, cname := fun _ => Option.none,
    uuidIdx := [], sched := [] }

/-- An environment with the given conflict flag. -/
def envEx (conflict : Bool) : Env :=
  { now := 1000, conflict := conflict, subUuid := "uu1", cronNext := 0 }

/-- A store whose uuid index holds entries for ids 1 and 2 while only
id 2 has a meta row (id 1 was deleted concurrently). -/
def storeC6 : Store :=
  { inc := 2,
    meta := fun i => if i = 2 then some (metaRowEx "new") else Option.none,
    cname := fun _ => Option.none, uuidIdx := [("u1", 1), ("u2", 2)],
    sched := [] }

/-- A parent task with a cname, as seen inside `dispatch`. -/
def parentEx : Task :=
  { request := reqEx, id := some 1, uuid := some "u1",
    cname := some "thistask", etaSlot := Slot.val (some 99),
    schedule := Option.none, last_run_at := Option.none, status := "running",
    on_success := Cb.str "http://cb", on_failure := Cb.str "__report__",
    on_complete := Cb.none }

/-- A fully-populated task used to witness the storage round trip. -/
def taskC7 : Task :=
  { request := reqEx, id := some 3, uuid := some "u7", cname := some "c7",
    etaSlot := Slot.val (some 5), schedule := some (Sched.interval 2500000),
    last_run_at := some 9, status := "delayed", on_success := Cb.none,
    on_failure := Cb.str "__report__",
    on_complete := Cb.record { request := reqEx } }

/-- A task whose schedule is an unsupported 50 µs interval: storing it
succeeds (the schedule field becomes the string `every 5e-05 seconds`),
but loading it back raises `ValueError` while reparsing that string. -/
def taskC7bad : Task :=
  { request := reqEx, id := some 4, uuid := some "u9", cname := some "c9",
    etaSlot := Slot.val (some 5), schedule := some (Sched.interval 50),
    last_run_at := Option.none, status := "delayed", on_success := Cb.none,
    on_failure := Cb.str "__report__", on_complete := Cb.none }

/-! ### Digit-arithmetic lemmas -/

theorem charDigit_digitChar {d : Nat} (h : d < 10) :
    charDigit (digitChar d) = d := by
  interval_cases d <;> rfl

theorem digitChar_isDigit {d : Nat} (h : d < 10) :
    (digitChar d).isDigit = true := by
  interval_cases d <;> rfl

theorem digitChar_not_space {d : Nat} (h : d < 10) :
    isSpaceChar (digitChar d) = false := by
  interval_cases d <;> rfl

theorem digitChar_ne_dot {d : Nat} (h : d < 10) : digitChar d ≠ '.' := by
  interval_cases d <;> decide

theorem map_charDigit_digitChar {l : List Nat} (h : ∀ d ∈ l, d < 10) :
    (l.map digitChar).map charDigit = l := by
  induction l with
  | nil => rfl
  | cons x t ih =>
      have hx := charDigit_digitChar (h x (by simp))
      have ht := ih (fun d hd => h d (by simp [hd]))
      simp [hx, ht]

theorem ofDigits_zeros {b : Nat} {l : List Nat} (h : ∀ x ∈ l, x = 0) :
    Nat.ofDigits b l = 0 := by
  induction l with
  | nil => rfl
  | cons x t ih =>
      have hx := h x (by simp)
      have ht := ih (fun y hy => h y (by simp [hy]))
      simp [Nat.ofDigits_cons, hx, ht]

theorem digits10_lt {n : Nat} : ∀ d ∈ Nat.digits 10 n, d < 10 :=
  fun _ hd => Nat.digits_lt_base (by norm_num) hd

theorem digits10_len_le {f k : Nat} (h : f < 10 ^ k) :
    (Nat.digits 10 f).length ≤ k := by
  by_cases hf : f = 0
  · simp [hf]
  · rw [Nat.digits_len 10 f (by norm_num) hf]
    have := Nat.log_lt_of_lt_pow hf h
    omega

theorem mem_takeWhile_zero :
    ∀ {l : List Nat} {x : Nat}, x ∈ l.takeWhile (fun y => y = 0) → x = 0 := by
  intro l
  induction l with
  | nil => intro x hx; simp [List.takeWhile] at hx
  | cons a t ih =>
      intro x hx
      rw [List.takeWhile_cons] at hx
      by_cases ha : a = 0
      · simp only [ha] at hx
        rcases List.mem_cons.mp (by simpa using hx) with rfl | hx
        · rfl
        · exact ih hx
      · simp [ha] at hx

theorem natStrChars_digits {n : Nat} :
    natStrChars n ≠ [] ∧ ∀ c ∈ natStrChars n, c.isDigit = true := by
  by_cases hn : n = 0
  · subst hn
    refine ⟨by decide, ?_⟩
    intro c hc
    have : c = '0' := by simpa [natStrChars] using hc
    subst this; rfl
  · rw [natStrChars, if_neg hn]
    constructor
    · have : Nat.digits 10 n ≠ [] := Nat.digits_ne_nil_iff_ne_zero.mpr hn
      simp [this]
    · intro c hc
      simp only [List.mem_map, List.mem_reverse] at hc
      obtain ⟨d, hd, rfl⟩ := hc
      exact digitChar_isDigit (digits10_lt d hd)

theorem natStrChars_parse {n : Nat} :
    digitsToNat ((natStrChars n).map charDigit) = n := by
  by_cases hn : n = 0
  · subst hn; rfl
  · rw [natStrChars, if_neg hn]
    rw [map_charDigit_digitChar (fun d hd => digits10_lt d (List.mem_reverse.mp hd))]
    unfold digitsToNat
    rw [List.reverse_reverse]
    exact Nat.ofDigits_digits 10 n

theorem fracStr_spec {f : Nat} (h : f < 1000000) :
    fracStrChars f ≠ [] ∧ (∀ c ∈ fracStrChars f, c.isDigit = true) ∧
      (fracStrChars f).length ≤ 6 ∧
      digitsToNat ((fracStrChars f).map charDigit) *
        10 ^ (6 - (fracStrChars f).length) = f := by
  have hlen6 : (Nat.digits 10 f).length ≤ 6 :=
    digits10_len_le (by norm_num; omega)
  set D := Nat.digits 10 f with hD
  set little := D ++ List.replicate (6 - D.length) 0 with hlittle
  set stripped := little.dropWhile (fun x => x = 0) with hstrip
  have hfrac : fracStrChars f =
      if stripped = [] then ['0'] else stripped.reverse.map digitChar := rfl
  have hlitlen : little.length = 6 := by
    simp [hlittle, List.length_append, List.length_replicate]; omega
  have hlitelems : ∀ x ∈ little, x < 10 := by
    intro x hx
    rcases List.mem_append.mp hx with hx | hx
    · exact digits10_lt x hx
    · rcases List.eq_of_mem_replicate hx with rfl; norm_num
  have hlitval : Nat.ofDigits 10 little = f := by
    rw [hlittle, Nat.ofDigits_append, hD, Nat.ofDigits_digits,
      ofDigits_zeros (fun y hy => List.eq_of_mem_replicate hy)]
    ring
  have hdecomp : little.takeWhile (fun x => x = 0) ++ stripped = little :=
    List.takeWhile_append_dropWhile _ _
  have hzeros : ∀ x ∈ little.takeWhile (fun x => x = 0), x = 0 :=
    fun _ hx => mem_takeWhile_zero hx
  have hjk : (little.takeWhile (fun x => x = 0)).length + stripped.length = 6 := by
    have := congrArg List.length hdecomp
    simp only [List.length_append] at this
    omega
  have hfval : 10 ^ (little.takeWhile (fun x => x = 0)).length *
      Nat.ofDigits 10 stripped = f := by
    calc 10 ^ (little.takeWhile (fun x => x = 0)).length *
          Nat.ofDigits 10 stripped
        = (Nat.ofDigits 10 (little.takeWhile (fun x => x = 0)) : Nat) +
            10 ^ (little.takeWhile (fun x => x = 0)).length *
              Nat.ofDigits 10 stripped := by
          rw [ofDigits_zeros hzeros]; ring
      _ = Nat.ofDigits 10 (little.takeWhile (fun x => x = 0) ++ stripped) := by
          have := @Nat.ofDigits_append 10 (little.takeWhile (fun x => x = 0))
            stripped
          exact_mod_cast this.symm
      _ = f := by rw [hdecomp, hlitval]
  rw [hfrac]
  by_cases hs : stripped = []
  · rw [if_pos hs]
    refine ⟨by decide, ?_, by decide, ?_⟩
    · intro c hc
      have : c = '0' := by simpa using hc
      subst this; rfl
    · have : f = 0 := by
        rw [← hfval, hs]; simp [Nat.ofDigits_nil]
      simp [this, digitsToNat, Nat.ofDigits]
      decide
  · rw [if_neg hs]
    have hselems : ∀ x ∈ stripped, x < 10 := by
      intro x hx
      exact hlitelems x (List.dropWhile_subset _ hx)
    refine ⟨by simp [hs], ?_, ?_, ?_⟩
    · intro c hc
      simp only [List.mem_map, List.mem_reverse] at hc
      obtain ⟨d, hd, rfl⟩ := hc
      exact digitChar_isDigit (hselems d hd)
    · simp only [List.length_map, List.length_reverse]; omega
    · rw [map_charDigit_digitChar
        (fun d hd => hselems d (List.mem_reverse.mp hd))]
      unfold digitsToNat
      rw [List.reverse_reverse]
      simp only [List.length_map, List.length_reverse]
      have hk : 6 - stripped.length =
          (little.takeWhile (fun x => x = 0)).length := by omega
      rw [hk, Nat.mul_comm]
      exact hfval

/-! ### ScheduleSpec round-trip lemmas -/

theorem takeWhile_all {α : Type} {p : α → Bool} :
    ∀ {l : List α}, (∀ a ∈ l, p a = true) → l.takeWhile p = l := by
  intro l
  induction l with
  | nil => intro _; rfl
  | cons x t ih =>
      intro h
      rw [List.takeWhile_cons_of_pos (h x (by simp))]
      rw [ih (fun a ha => h a (by simp [ha]))]

theorem dropWhile_all {α : Type} {p : α → Bool} :
    ∀ {l : List α}, (∀ a ∈ l, p a = true) → l.dropWhile p = [] := by
  intro l
  induction l with
  | nil => intro _; rfl
  | cons x t ih =>
      intro h
      rw [List.dropWhile_cons_of_pos (h x (by simp))]
      exact ih (fun a ha => h a (by simp [ha]))

theorem isDigit_not_space {c : Char} (h : c.isDigit = true) :
    isSpaceChar c = false := by
  apply decide_eq_false
  intro hc
  rcases hc with h1 | h1 | h1 | h1 | h1 | h1 <;>
    (subst h1; exact absurd h (by decide))

theorem isDigit_dot_false : ('.'.isDigit) = false := by decide

theorem cronCharOK_prop {c : Char} (h : cronCharOK c = true) :
    isSpaceChar c = false ∧ c ≠ 'e' := by
  have hc := of_decide_eq_true h
  rcases hc with h1 | h1 | h1 | h1 | h1
  · exact ⟨isDigit_not_space h1, by
      intro he; subst he; exact absurd h1 (by decide)⟩
  all_goals (subst h1; exact ⟨by decide, by decide⟩)

theorem schedSubAux_nil : ∀ fuel : Nat, schedSubAux fuel [] = []
  | 0 => rfl
  | _ + 1 => rfl

/-- Analysis of the matcher on a well-formed positional interval string
(in cons-normal form): the whole string matches and the captured group
is the numeral. -/
theorem schedMatchAt_interval {c : Char} {I' F : List Char}
    (hId : ∀ x ∈ c :: I', x.isDigit = true)
    (hFd : ∀ x ∈ F, x.isDigit = true) :
    schedMatchAt ('e' :: 'v' :: 'e' :: 'r' :: 'y' :: ' ' :: c ::
      (I' ++ ('.' :: (F ++ [' ', 's', 'e', 'c', 'o', 'n', 'd', 's'])))) =
      some ((c :: I') ++ '.' :: F, []) := by
  have hdigc : c.isDigit = true := hId c (by simp)
  have hI'd : ∀ x ∈ I', x.isDigit = true := fun x hx => hId x (by simp [hx])
  have hlit : matchLit ['e', 'v', 'e', 'r', 'y']
      ('e' :: 'v' :: 'e' :: 'r' :: 'y' :: ' ' :: c ::
        (I' ++ ('.' :: (F ++ [' ', 's', 'e', 'c', 'o', 'n', 'd', 's'])))) =
      some (' ' :: c ::
        (I' ++ ('.' :: (F ++ [' ', 's', 'e', 'c', 'o', 'n', 'd', 's'])))) := by
    simp [matchLit]
  have hdrop1 : (' ' :: c ::
      (I' ++ ('.' :: (F ++ [' ', 's', 'e', 'c', 'o', 'n', 'd', 's'])))
        : List Char).dropWhile isSpaceChar =
      c :: (I' ++ ('.' :: (F ++ [' ', 's', 'e', 'c', 'o', 'n', 'd', 's']))) := by
    rw [List.dropWhile_cons_of_pos (by decide)]
    rw [List.dropWhile_cons_of_neg (by simp [isDigit_not_space hdigc])]
  have htake : (c :: (I' ++ ('.' :: (F ++
      [' ', 's', 'e', 'c', 'o', 'n', 'd', 's'])))).takeWhile Char.isDigit =
      c :: I' := by
    rw [List.takeWhile_cons_of_pos hdigc, List.takeWhile_append_of_pos hI'd]
    rw [List.takeWhile_cons_of_neg (by simp [isDigit_dot_false])]
    simp
  have hdropD : (c :: (I' ++ ('.' :: (F ++
      [' ', 's', 'e', 'c', 'o', 'n', 'd', 's'])))).dropWhile Char.isDigit =
      '.' :: (F ++ [' ', 's', 'e', 'c', 'o', 'n', 'd', 's']) := by
    rw [List.dropWhile_cons_of_pos hdigc, List.dropWhile_append_of_pos hI'd]
    rw [List.dropWhile_cons_of_neg (by simp [isDigit_dot_false])]
  have htakeF : (F ++ [' ', 's', 'e', 'c', 'o', 'n', 'd', 's']).takeWhile
      Char.isDigit = F := by
    rw [List.takeWhile_append_of_pos hFd]
    rw [List.takeWhile_cons_of_neg (by decide)]
    simp
  have hdropF : (F ++ [' ', 's', 'e', 'c', 'o', 'n', 'd', 's']).dropWhile
      Char.isDigit = [' ', 's', 'e', 'c', 'o', 'n', 'd', 's'] := by
    rw [List.dropWhile_append_of_pos hFd]
    rw [List.dropWhile_cons_of_neg (by decide)]
  have hnum : matchNum (c :: (I' ++ ('.' :: (F ++
      [' ', 's', 'e', 'c', 'o', 'n', 'd', 's'])))) =
      some ((c :: I') ++ '.' :: F,
        [' ', 's', 'e', 'c', 'o', 'n', 'd', 's']) := by
    rw [matchNum, htake, hdropD]
    rw [if_neg (by simp)]
    show some ((c :: I') ++ '.' ::
        (F ++ [' ', 's', 'e', 'c', 'o', 'n', 'd', 's']).takeWhile Char.isDigit,
      (F ++ [' ', 's', 'e', 'c', 'o', 'n', 'd', 's']).dropWhile Char.isDigit) = _
    rw [htakeF, hdropF]
  have hsec : ([' ', 's', 'e', 'c', 'o', 'n', 'd', 's'] : List Char).dropWhile
      isSpaceChar = ['s', 'e', 'c', 'o', 'n', 'd', 's'] := by decide
  simp [schedMatchAt, hlit, hdrop1, hnum, hsec, matchLit]

/-- One-step unfolding of the substitution scanner. -/
theorem schedSubAux_cons (fuel : Nat) (c : Char) (t : List Char) :
    schedSubAux (fuel + 1) (c :: t) =
      match schedMatchAt (c :: t) with
      | some (g, rest) => g ++ schedSubAux fuel rest
      | Option.none => c :: schedSubAux fuel t := rfl

/-- Analysis of `parseNumeral` on a well-formed numeral. -/
theorem parseNumeral_format {I F : List Char} (hI : I ≠ [])
    (hId : ∀ x ∈ I, x.isDigit = true) (hFd : ∀ x ∈ F, x.isDigit = true) :
    parseNumeral (I ++ '.' :: F) =
      some (digitsToNat (I.map charDigit), F.map charDigit) := by
  rw [parseNumeral]
  rw [List.takeWhile_append_of_pos hId, List.dropWhile_append_of_pos hId]
  rw [List.takeWhile_cons_of_neg (by simp [isDigit_dot_false])]
  rw [List.dropWhile_cons_of_neg (by simp [isDigit_dot_false])]
  simp only [List.append_nil]
  rw [takeWhile_all hFd, dropWhile_all hFd]
  rw [if_pos (by exact ⟨rfl, by intro hc; exact hI hc.1⟩)]

theorem interval_format_chars {m : Nat} (hm : 100 ≤ m) :
    schedToStringChars (Sched.interval m) =
      ['e', 'v', 'e', 'r', 'y', ' '] ++
        (natStrChars (m / 1000000) ++ '.' :: fracStrChars (m % 1000000)) ++
        [' ', 's', 'e', 'c', 'o', 'n', 'd', 's'] := by
  rw [schedToStringChars, pyFloatStrChars, if_neg (by omega)]

theorem splitWS_nil : splitWS [] = [] := by rw [splitWS]

theorem splitWS_cons_space {rest : List Char} :
    splitWS (' ' :: rest) = splitWS rest := by
  rw [splitWS]
  rw [if_pos (by decide)]

theorem splitWS_word_append {w rest : List Char} (hw : w ≠ [])
    (hall : ∀ c ∈ w, isSpaceChar c = false) :
    splitWS (w ++ ' ' :: rest) = w :: splitWS rest := by
  obtain ⟨c, t, rfl⟩ : ∃ c t, w = c :: t := by
    cases w with
    | nil => exact absurd rfl hw
    | cons c t => exact ⟨c, t, rfl⟩
  rw [List.cons_append, splitWS]
  rw [if_neg (by simp [hall c (by simp)])]
  have htake : (t ++ ' ' :: rest).takeWhile (fun x => ¬ isSpaceChar x) = t := by
    rw [List.takeWhile_append_of_pos (by
      intro a ha; simp [hall a (by simp [ha])])]
    rw [List.takeWhile_cons_of_neg (by decide)]
    simp
  have hdrop : (t ++ ' ' :: rest).dropWhile (fun x => ¬ isSpaceChar x) =
      ' ' :: rest := by
    rw [List.dropWhile_append_of_pos (by
      intro a ha; simp [hall a (by simp [ha])])]
    rw [List.dropWhile_cons_of_neg (by decide)]
  rw [htake, hdrop, splitWS_cons_space]

theorem splitWS_word {w : List Char} (hw : w ≠ [])
    (hall : ∀ c ∈ w, isSpaceChar c = false) : splitWS w = [w] := by
  obtain ⟨c, t, rfl⟩ : ∃ c t, w = c :: t := by
    cases w with
    | nil => exact absurd rfl hw
    | cons c t => exact ⟨c, t, rfl⟩
  rw [splitWS]
  rw [if_neg (by simp [hall c (by simp)])]
  rw [takeWhile_all (by intro a ha; simp [hall a (by simp [ha])])]
  rw [dropWhile_all (by intro a ha; simp [hall a (by simp [ha])])]
  rw [splitWS_nil]

/-- The schedule round trip itself: parsing the formatted string of a
well-formed schedule returns the schedule. -/
theorem sched_roundtrip {sc : Sched} (h : sc.WF) :
    schedFromString (schedToString sc) = Except.ok sc := by
  cases sc with
  | interval m =>
      obtain ⟨hm, _⟩ := h
      set ip := m / 1000000 with hip
      set fr := m % 1000000 with hfr
      have hfrlt : fr < 1000000 := Nat.mod_lt _ (by norm_num)
      obtain ⟨hI, hId⟩ := @natStrChars_digits ip
      obtain ⟨hF, hFd, hFlen, hFval⟩ := fracStr_spec hfrlt
      obtain ⟨c, I', hcI⟩ : ∃ c I', natStrChars ip = c :: I' := by
        cases hh : natStrChars ip with
        | nil => exact absurd hh hI
        | cons c I' => exact ⟨c, I', rfl⟩
      rw [hcI] at hId
      have hdata2 : (schedToString (Sched.interval m)).data =
          'e' :: 'v' :: 'e' :: 'r' :: 'y' :: ' ' :: c ::
            (I' ++ ('.' :: (fracStrChars fr ++
              [' ', 's', 'e', 'c', 'o', 'n', 'd', 's']))) := by
        show schedToStringChars (Sched.interval m) = _
        rw [interval_format_chars hm, ← hip, ← hfr, hcI]
        simp [List.cons_append, List.append_assoc]
      have hmatch := schedMatchAt_interval hId hFd
      rw [schedFromString, hdata2, hmatch]
      have hsub : schedSub ('e' :: 'v' :: 'e' :: 'r' :: 'y' :: ' ' :: c ::
          (I' ++ ('.' :: (fracStrChars fr ++
            [' ', 's', 'e', 'c', 'o', 'n', 'd', 's'])))) =
          (c :: I') ++ '.' :: fracStrChars fr := by
        rw [schedSub, schedSubAux_cons, hmatch]
        show ((c :: I') ++ '.' :: fracStrChars fr) ++ schedSubAux _ [] = _
        rw [schedSubAux_nil, List.append_nil]
      rw [hsub]
      have hparse := parseNumeral_format (by simp) hId hFd
      rw [hparse]
      have hval : numeralMicros (digitsToNat (((c :: I').map charDigit)))
          ((fracStrChars fr).map charDigit) = m := by
        rw [numeralMicros]
        simp only [List.length_map]
        rw [if_pos hFlen, hFval, ← hcI, natStrChars_parse, hip, hfr]
        omega
      show Except.ok (Sched.interval (numeralMicros
        (digitsToNat ((c :: I').map charDigit))
        ((fracStrChars fr).map charDigit))) = Except.ok (Sched.interval m)
      rw [hval]
  | cron f1 f2 f3 f4 f5 =>
      have h1 := h f1 (by simp)
      have h2 := h f2 (by simp)
      have h3 := h f3 (by simp)
      have h4 := h f4 (by simp)
      have h5 := h f5 (by simp)
      have wordOK : ∀ f : String, f.data ≠ [] ∧ (∀ c ∈ f.data, cronCharOK c) →
          f.data ≠ [] ∧ ∀ c ∈ f.data, isSpaceChar c = false := by
        intro f hf
        exact ⟨hf.1, fun c hc => (cronCharOK_prop (hf.2 c hc)).1⟩
      obtain ⟨hn1, hs1⟩ := wordOK f1 h1
      obtain ⟨hn2, hs2⟩ := wordOK f2 h2
      obtain ⟨hn3, hs3⟩ := wordOK f3 h3
      obtain ⟨hn4, hs4⟩ := wordOK f4 h4
      obtain ⟨hn5, hs5⟩ := wordOK f5 h5
      obtain ⟨c, t, hct⟩ : ∃ c t, f1.data = c :: t := by
        cases hh : f1.data with
        | nil => exact absurd hh hn1
        | cons c t => exact ⟨c, t, rfl⟩
      have hce : c ≠ 'e' := (cronCharOK_prop (h1.2 c (by rw [hct]; simp))).2
      have hdata2 : (schedToString (Sched.cron f1 f2 f3 f4 f5)).data =
          f1.data ++ ' ' :: (f2.data ++ ' ' :: (f3.data ++ ' ' ::
            (f4.data ++ ' ' :: f5.data))) := by
        show schedToStringChars (Sched.cron f1 f2 f3 f4 f5) = _
        rw [schedToStringChars]
        simp [List.append_assoc]
      have hmatch : schedMatchAt (f1.data ++ ' ' :: (f2.data ++ ' ' ::
          (f3.data ++ ' ' :: (f4.data ++ ' ' :: f5.data)))) = Option.none := by
        rw [hct, List.cons_append, schedMatchAt]
        rw [matchLit, if_neg hce]
      rw [schedFromString, hdata2, hmatch]
      have hsplit : splitWS (f1.data ++ ' ' :: (f2.data ++ ' ' ::
          (f3.data ++ ' ' :: (f4.data ++ ' ' :: f5.data)))) =
          [f1.data, f2.data, f3.data, f4.data, f5.data] := by
        rw [splitWS_word_append hn1 hs1, splitWS_word_append hn2 hs2,
          splitWS_word_append hn3 hs3, splitWS_word_append hn4 hs4,
          splitWS_word hn5 hs5]
      rw [hsplit]

/-! ### Header-dict lemmas -/

theorem hdrSet_lookup_self :
    ∀ (d : List (String × HV)) (k : String) (v : HV),
      (hdrSet d k v).lookup k = some v := by
  intro d k v
  induction d with
  | nil => simp [hdrSet, List.lookup]
  | cons e t ih =>
      rcases e with ⟨a, b⟩
      by_cases h : a = k
      · subst h
        simp [hdrSet, List.lookup]
      · have hb : (k == a) = false :=
          beq_eq_false_iff_ne.mpr (fun hh => h hh.symm)
        simp [hdrSet, h, List.lookup, hb, ih]

theorem hdrSet_lookup_ne :
    ∀ (d : List (String × HV)) (k k' : String) (v : HV), k' ≠ k →
      (hdrSet d k v).lookup k' = d.lookup k' := by
  intro d k k' v hne
  have hb : (k' == k) = false := beq_eq_false_iff_ne.mpr hne
  induction d with
  | nil => simp [hdrSet, List.lookup, hb]
  | cons e t ih =>
      rcases e with ⟨a, b⟩
      by_cases h : a = k
      · subst h
        simp [hdrSet, List.lookup, hb]
      · by_cases h2 : k' = a
        · have hb2 : (k' == a) = true := beq_iff_eq.mpr h2
          simp [hdrSet, h, List.lookup, hb2]
        · have hb2 : (k' == a) = false := beq_eq_false_iff_ne.mpr h2
          simp [hdrSet, h, List.lookup, hb2, ih]

/-! ### Claims -/

/-- C2.  The dispatch entry point acquires the running slot with
`_update_status(id, 'running', 'new', 'scheduled', 'delayed')`: the
literal allowed-previous set of the source omits `'enqueued'`, so a
stored task whose status is `'enqueued'` — the canonical fresh status
according to the module's own tests — is NOT acquired: the CAS raises
`TaskStatusNotMatched` and nothing is written, while `'new'`,
`'scheduled'` and `'delayed'` each transition to `'running'`. -/
theorem c2_dispatch_rejects_enqueued :
    Task.dispatchAcquire (storeEx "enqueued") 0 (taskEx "enqueued") =
      (storeEx "enqueued", Except.error Err.statusNotMatched) ∧
    (Task.dispatchAcquire (storeEx "new") 0 (taskEx "new")).2 =
      Except.ok { taskEx "new" with status := "running", last_run_at := Option.none } ∧
    (Task.dispatchAcquire (storeEx "scheduled") 0 (taskEx "scheduled")).2 =
      Except.ok { taskEx "scheduled" with status := "running", last_run_at := Option.none } ∧
    (Task.dispatchAcquire (storeEx "delayed") 0 (taskEx "delayed")).2 =
      Except.ok { taskEx "delayed" with status := "running", last_run_at := Option.none } :=
  ⟨rfl, rfl, rfl, rfl⟩

/-- C3.  `_update_status` writes `last_run_at := now` into the store on
success, but the method body drops the transaction helper's value (there
is no `return`), so the method returns Python `None`; `dispatch`
consequently sets the in-memory task's `last_run_at` to `None`, not to
the timestamp that was written. -/
theorem c3_update_status_returns_none :
    (TaskQueue.update_status (storeEx "new") 5 1 "running" ["new"]).2 =
      Except.ok Option.none ∧
    ((((TaskQueue.update_status (storeEx "new") 5 1 "running"
        ["new"]).1.meta 1).getD []).lookup "last_run_at") =
      some (Val.time 5) ∧
    (Task.dispatchAcquire (storeEx "new") 5 (taskEx "new")).2 =
      Except.ok { taskEx "new" with status := "running", last_run_at := Option.none } :=
  ⟨rfl, rfl, rfl⟩

/-- C5 counterexample.  `add_task`/`Task.__init__` with `countdown = 0`
and an `eta` argument: the claim says the effective eta becomes
`now + 0 = now`, but the countdown setter ignores the falsy `0` and the
constructor skips the eta assignment, so reading `eta` raises
`AttributeError` instead of returning `now`. -/
theorem c5_counterexample :
    Task.eta (Task.init 100 reqEx Option.none Option.none Option.none
        (some 0) (some 7) Option.none Option.none "new" Cb.none
        (Cb.str "__report__") Cb.none) = Except.error Err.attributeError ∧
    Task.eta (Task.init 100 reqEx Option.none Option.none Option.none
        (some 0) (some 7) Option.none Option.none "new" Cb.none
        (Cb.str "__report__") Cb.none) ≠ Except.ok (some 100) :=
  ⟨rfl, by decide⟩

/-- C5 (amended).  When both `countdown` and `eta` are supplied and
`countdown` is nonzero, countdown wins: the task's effective eta becomes
`now + countdown` and the supplied `eta` argument is ignored (the
conclusion does not depend on it).  For `countdown = 0` the supplied
`eta` is still ignored, but no eta is assigned at all (the `_eta` slot
stays unset and reads raise `AttributeError`, see the counterexample). -/
theorem c5_countdown_wins (now : Int) (req : Request) (id : Option Nat)
    (uuid cname : Option String) (cd : Int) (hcd : cd ≠ 0)
    (eta : Option Int) (sched : Option Sched) (lra : Option Int)
    (st : String) (os onf oc : Cb) :
    (Task.init now req id uuid cname (some cd) eta sched lra st
      os onf oc).etaSlot = Slot.val (some (now + cd)) := by
  simp [Task.init, hcd]

/-- C5 witness. -/
theorem c5_countdown_wins_witness :
    (42 : Int) ≠ 0 ∧
    (Task.init 1000 reqEx Option.none Option.none Option.none (some 42)
      (some 7) Option.none Option.none "new" Cb.none (Cb.str "__report__")
      Cb.none).etaSlot = Slot.val (some 1042) :=
  ⟨by decide, c5_countdown_wins 1000 reqEx Option.none Option.none
    Option.none 42 (by decide) (some 7) Option.none Option.none "new"
    Cb.none (Cb.str "__report__") Cb.none⟩

/-- C6.  During `iter_tasks`, a uuid-index entry whose id has no meta
row is NOT skipped: `HGETALL` returns an empty hash (never Python
`None`), so the `if task_dict is None: continue` guard is dead code and
the empty dict reaches `Task._from_redis`, where `task_dict['eta']`
raises `KeyError` and the whole iteration fails instead of yielding the
remaining tasks. -/
theorem c6_iter_tasks_raises_on_missing_meta :
    TaskQueue.iter_tasks storeC6 0 0 50 =
      Except.error (Err.keyError "eta") := rfl

/-- C10.  Constructing a task with `countdown = 0` never assigns the
`_eta` slot: the countdown setter returns without storing anything for
the falsy value and the constructor then skips the eta assignment, so
every subsequent read of `eta` or `countdown` raises `AttributeError` —
including building the task view, so `add_task` with `countdown = 0`
and no `eta` fails with `AttributeError` (after having incremented the
id counter) rather than treating countdown 0 as "fire immediately". -/
theorem c10_countdown_zero_unset (now now2 : Int) (req : Request)
    (cname : Option String) (sched : Option Sched) (os onf oc : Cb)
    (s : Store) (env : Env) :
    (Task.init now req Option.none Option.none cname (some 0) Option.none
      sched Option.none "new" os onf oc).etaSlot = Slot.unset ∧
    Task.eta (Task.init now req Option.none Option.none cname (some 0)
      Option.none sched Option.none "new" os onf oc) =
      Except.error Err.attributeError ∧
    Task.countdown now2 (Task.init now req Option.none Option.none cname
      (some 0) Option.none sched Option.none "new" os onf oc) =
      Except.error Err.attributeError ∧
    Task.to_dict now2 (Task.init now req Option.none Option.none cname
      (some 0) Option.none sched Option.none "new" os onf oc) =
      Except.error Err.attributeError ∧
    TaskQueue.add_task s env req Option.none (some 0) Option.none
      Option.none os onf oc =
      ({ s with inc := s.inc + 1 }, Except.error Err.attributeError) :=
  ⟨rfl, rfl, rfl, rfl, rfl⟩

/-- Formatting a 50 µs interval renders the seconds count in scientific
notation, as Python `str(5e-05)` does. -/
theorem interval50_format :
    schedToString (Sched.interval 50) = "every 5e-05 seconds" := by
  have h50 : pyFloatStrChars 50 = ['5', 'e', '-', '0', '5'] := by
    simp [pyFloatStrChars, Nat.digits_def', digitChar, Nat.digitChar]
  show (⟨schedToStringChars (Sched.interval 50)⟩ : String) = _
  rw [schedToStringChars, h50]
  decide

/-- The string `every 5e-05 seconds` does not match `_sched_pattern`
(the numeral grammar has no exponent), falls into the cron branch, and
its three whitespace-separated fields fail the five-way tuple unpacking
with `ValueError`. -/
theorem sci_interval_parse_fails :
    schedFromString "every 5e-05 seconds" = Except.error Err.valueError := by
  have hm : schedMatchAt ("every 5e-05 seconds".data) = Option.none := by
    decide
  have hd : ("every 5e-05 seconds".data) =
      "every".data ++ ' ' :: ("5e-05".data ++ ' ' :: "seconds".data) := by
    decide
  have hsp : splitWS ("every 5e-05 seconds".data) =
      ["every".data, "5e-05".data, "seconds".data] := by
    rw [hd, splitWS_word_append (by decide) (by decide),
      splitWS_word_append (by decide) (by decide),
      splitWS_word (by decide) (by decide)]
  rw [schedFromString, hm, hsp]

/-- C8 counterexample.  The interval `N = 5e-05` seconds (50 µs) is a
positive real, but `str(5e-05)` is scientific notation: the formatted
string `'every 5e-05 seconds'` does not match `_sched_pattern`, falls
into the cron branch, and its three whitespace-separated fields fail the
five-way tuple unpacking with `ValueError` — so `parse(format(s))`
raises instead of returning `s`. -/
theorem c8_counterexample :
    schedFromString (schedToString (Sched.interval 50)) =
      Except.error Err.valueError ∧
    schedFromString (schedToString (Sched.interval 50)) ≠
      Except.ok (Sched.interval 50) := by
  rw [interval50_format, sci_interval_parse_fails]
  exact ⟨rfl, by decide⟩

/-- C8 (amended).  For every supported schedule whose formatted string
stays both in the grammar the parser accepts and within float fidelity —
an interval of at least `1e-4` seconds (smaller values render
scientifically and fail, see the counterexample) and at most `2^33`
seconds (larger values lose microsecond precision in
`total_seconds()`, so the formatted string reparses to a different
schedule), or a five-field cron in standard numeric syntax — parsing
the formatted string yields the original schedule:
`parse(format(s)) = s`. -/
theorem c8_schedule_roundtrip (sc : Sched) (h : sc.WF) :
    schedFromString (schedToString sc) = Except.ok sc :=
  sched_roundtrip h

/-- C8 witness. -/
theorem c8_schedule_roundtrip_witness :
    (Sched.interval 2500000).WF ∧
    schedFromString (schedToString (Sched.interval 2500000)) =
      Except.ok (Sched.interval 2500000) ∧
    (Sched.cron "*/2" "1,2" "*" "*" "0-6").WF ∧
    schedFromString (schedToString (Sched.cron "*/2" "1,2" "*" "*" "0-6")) =
      Except.ok (Sched.cron "*/2" "1,2" "*" "*" "0-6") :=
  ⟨by decide, c8_schedule_roundtrip (Sched.interval 2500000) (by decide),
   by decide, c8_schedule_roundtrip (Sched.cron "*/2" "1,2" "*" "*" "0-6")
     (by decide)⟩

/-! ### Task-loading lemmas -/

theorem from_redis_id {now : Int} {tid : Nat} {d : List (String × Val)}
    {t : Task} (h : Task.from_redis now tid d = Except.ok t) :
    t.id = some tid := by
  rcases ha : Task.decode_meta d with e | a <;>
    simp only [Task.from_redis, ha, bind, Except.bind, pure,
      Except.pure] at h
  · exact absurd h (by simp)
  · cases h
    rfl

theorem get_task_impl_id {s : Store} {now : Int} {i : Nat} {t : Task}
    (h : TaskQueue.get_task_impl s now i = Except.ok t) : t.id = some i := by
  rw [TaskQueue.get_task_impl] at h
  split at h
  · exact absurd h (by simp)
  · split at h
    · exact absurd h (by simp)
    · exact from_redis_id h

theorem delete_task_impl_meta {s : Store} {t : Task} {i : Nat}
    (hid : t.id = some i) :
    (TaskQueue.delete_task_impl s t).meta i = Option.none := by
  rcases hcn : t.cname with _ | cn <;>
    simp [TaskQueue.delete_task_impl, hid, hcn, setFun]

/-- C4.  `delete_task(id)` loads the task and refuses with
`TaskStatusNotMatched` when its status is `running`, leaving the store
untouched; `delete_task_by_uuid` and `delete_task_by_cname` resolve the
task and run the shared deletion procedure with no check of the
`running` status (the meta row is gone afterwards either way); and all
three raise `TaskNotFound` when the id / uuid / cname does not
resolve. -/
theorem c4_delete_semantics :
    (∀ (s : Store) (now : Int) (id : Nat) (t : Task),
      TaskQueue.get_task_impl s now id = Except.ok t → t.status = "running" →
      TaskQueue.delete_task s now id = (s, Except.error Err.statusNotMatched)) ∧
    (∀ (s : Store) (now : Int) (id : Nat), s.meta id = Option.none →
      TaskQueue.delete_task s now id = (s, Except.error Err.notFound)) ∧
    (∀ (s : Store) (now : Int) (u : String) (i : Nat) (t : Task),
      zscore s.uuidIdx u = some i → i ≠ 0 →
      TaskQueue.get_task_impl s now i = Except.ok t →
      TaskQueue.delete_task_by_uuid s now u =
        (TaskQueue.delete_task_impl s t, Except.ok ()) ∧
      (TaskQueue.delete_task_by_uuid s now u).1.meta i = Option.none) ∧
    (∀ (s : Store) (now : Int) (u : String),
      zscore s.uuidIdx u = Option.none ∨ zscore s.uuidIdx u = some 0 →
      TaskQueue.delete_task_by_uuid s now u =
        (s, Except.error Err.notFound)) ∧
    (∀ (s : Store) (now : Int) (c : String) (i : Nat) (t : Task),
      s.cname c = some i → TaskQueue.get_task_impl s now i = Except.ok t →
      TaskQueue.delete_task_by_cname s now c =
        (TaskQueue.delete_task_impl s t, Except.ok ()) ∧
      (TaskQueue.delete_task_by_cname s now c).1.meta i = Option.none) ∧
    (∀ (s : Store) (now : Int) (c : String), s.cname c = Option.none →
      TaskQueue.delete_task_by_cname s now c =
        (s, Except.error Err.notFound)) := by
  refine ⟨?_, ?_, ?_, ?_, ?_, ?_⟩
  · intro s now id t hget hrun
    simp [TaskQueue.delete_task, hget, hrun]
  · intro s now id hmeta
    simp [TaskQueue.delete_task, TaskQueue.get_task_impl, hmeta]
  · intro s now u i t hz hi hget
    have h1 : TaskQueue.delete_task_by_uuid s now u =
        (TaskQueue.delete_task_impl s t, Except.ok ()) := by
      simp [TaskQueue.delete_task_by_uuid, TaskQueue.get_task_by_uuid_impl,
        hz, hi, hget]
    exact ⟨h1, by rw [h1]; exact delete_task_impl_meta (get_task_impl_id hget)⟩
  · intro s now u h
    rcases h with h | h <;>
      simp [TaskQueue.delete_task_by_uuid, TaskQueue.get_task_by_uuid_impl, h]
  · intro s now c i t hc hget
    have h1 : TaskQueue.delete_task_by_cname s now c =
        (TaskQueue.delete_task_impl s t, Except.ok ()) := by
      simp [TaskQueue.delete_task_by_cname, TaskQueue.get_task_by_cname_impl,
        hc, hget]
    exact ⟨h1, by rw [h1]; exact delete_task_impl_meta (get_task_impl_id hget)⟩
  · intro s now c hc
    simp [TaskQueue.delete_task_by_cname, TaskQueue.get_task_by_cname_impl, hc]

/-- C4 witness. -/
theorem c4_delete_semantics_witness :
    TaskQueue.delete_task (storeEx "running") 0 1 =
      (storeEx "running", Except.error Err.statusNotMatched) ∧
    TaskQueue.delete_task store0 0 1 = (store0, Except.error Err.notFound) ∧
    (TaskQueue.delete_task_by_uuid (storeEx "running") 0 "u1" =
      (TaskQueue.delete_task_impl (storeEx "running") (taskEx "running"),
        Except.ok ()) ∧
     (TaskQueue.delete_task_by_uuid (storeEx "running") 0 "u1").1.meta 1 =
       Option.none) ∧
    TaskQueue.delete_task_by_uuid store0 0 "nope" =
      (store0, Except.error Err.notFound) ∧
    (TaskQueue.delete_task_by_cname (storeEx "running") 0 "ca" =
      (TaskQueue.delete_task_impl (storeEx "running") (taskEx "running"),
        Except.ok ()) ∧
     (TaskQueue.delete_task_by_cname (storeEx "running") 0 "ca").1.meta 1 =
       Option.none) ∧
    TaskQueue.delete_task_by_cname store0 0 "nope" =
      (store0, Except.error Err.notFound) :=
  ⟨c4_delete_semantics.1 (storeEx "running") 0 1 (taskEx "running") rfl rfl,
   c4_delete_semantics.2.1 store0 0 1 rfl,
   c4_delete_semantics.2.2.1 (storeEx "running") 0 "u1" 1 (taskEx "running")
     rfl (by decide) rfl,
   c4_delete_semantics.2.2.2.1 store0 0 "nope" (Or.inl rfl),
   c4_delete_semantics.2.2.2.2.1 (storeEx "running") 0 "ca" 1
     (taskEx "running") rfl rfl,
   c4_delete_semantics.2.2.2.2.2 store0 0 "nope" rfl⟩

/-- Equation for the chained-header injection when the parent's `_eta`
slot is assigned and its cname is set. -/
theorem chain_headers_eq {t : Task} {e : Option Int} {c : String}
    (he : t.etaSlot = Slot.val e) (hc : t.cname = some c)
    (payload : String) (r : SubArgs) :
    Task.chain_headers t payload r = Except.ok (some { request :=
      { r.request with
          headers := some (hdrSet (hdrSet (hdrSet (hdrSet
            (r.request.headers.getD [])
            "X-Asynx-Chained" (HV.str t.request.url))
            "X-Asynx-Chained-TaskUUID"
            (match t.uuid with
             | some u => HV.str u
             | Option.none => HV.none))
            "X-Asynx-Chained-TaskETA"
            (match e with
             | some x => HV.time x
             | Option.none => HV.str "-"))
            "X-Asynx-Chained-taskCName" (HV.str c)),
          payload := some payload } }) := by
  simp [Task.chain_headers, Task.eta, he, hc, bind, Except.bind, pure,
    Except.pure]
  cases e <;> rfl

/-- Lookups after the four header injections. -/
theorem chainLookup (base : List (String × HV)) (vurl v2 v3 : HV)
    (c : String) :
    (hdrSet (hdrSet (hdrSet (hdrSet base "X-Asynx-Chained" vurl)
      "X-Asynx-Chained-TaskUUID" v2) "X-Asynx-Chained-TaskETA" v3)
      "X-Asynx-Chained-taskCName" (HV.str c)).lookup "X-Asynx-Chained" =
        some vurl ∧
    (hdrSet (hdrSet (hdrSet (hdrSet base "X-Asynx-Chained" vurl)
      "X-Asynx-Chained-TaskUUID" v2) "X-Asynx-Chained-TaskETA" v3)
      "X-Asynx-Chained-taskCName" (HV.str c)).lookup
        "X-Asynx-Chained-TaskUUID" = some v2 ∧
    (hdrSet (hdrSet (hdrSet (hdrSet base "X-Asynx-Chained" vurl)
      "X-Asynx-Chained-TaskUUID" v2) "X-Asynx-Chained-TaskETA" v3)
      "X-Asynx-Chained-taskCName" (HV.str c)).lookup
        "X-Asynx-Chained-TaskETA" = some v3 ∧
    (hdrSet (hdrSet (hdrSet (hdrSet base "X-Asynx-Chained" vurl)
      "X-Asynx-Chained-TaskUUID" v2) "X-Asynx-Chained-TaskETA" v3)
      "X-Asynx-Chained-taskCName" (HV.str c)).lookup
        "X-Asynx-Chained-taskCName" = some (HV.str c) := by
  refine ⟨?_, ?_, ?_, ?_⟩
  · rw [hdrSet_lookup_ne _ _ _ _ (by decide),
      hdrSet_lookup_ne _ _ _ _ (by decide),
      hdrSet_lookup_ne _ _ _ _ (by decide), hdrSet_lookup_self]
  · rw [hdrSet_lookup_ne _ _ _ _ (by decide),
      hdrSet_lookup_ne _ _ _ _ (by decide), hdrSet_lookup_self]
  · rw [hdrSet_lookup_ne _ _ _ _ (by decide), hdrSet_lookup_self]
  · rw [hdrSet_lookup_self]

/-- C9 counterexample.  For a parent task with a cname, the sub-task
record built by `_dispatch_callback` does NOT contain a header key
exactly named `X-Asynx-Chained-TaskCName`; the key actually injected by
the source is spelled `X-Asynx-Chained-taskCName` (lowercase `t`). -/
theorem c9_counterexample :
    ∃ args, Task.dispatch_callback_args parentEx "PL" (Cb.str "http://cb") =
        Except.ok (some args) ∧
      (args.request.headers.getD []).lookup "X-Asynx-Chained-TaskCName" =
        Option.none ∧
      (args.request.headers.getD []).lookup "X-Asynx-Chained-taskCName" =
        some (HV.str "thistask") :=
  ⟨_, rfl, rfl, rfl⟩

/-- C9 (amended).  When a callback descriptor is a sub-task record (or
an http(s) URL rewritten to one) and the parent task has a cname, the
sub-task's request headers contain `X-Asynx-Chained` (the parent url),
`X-Asynx-Chained-TaskUUID`, `X-Asynx-Chained-TaskETA`, and — under the
key exactly spelled `X-Asynx-Chained-taskCName` — the parent's cname. -/
theorem c9_chain_header_keys (t : Task) (payload : String) (c : String)
    (e : Option Int) (hc : t.cname = some c) (he : t.etaSlot = Slot.val e) :
    (∀ r : SubArgs, ∃ args,
      Task.dispatch_callback_args t payload (Cb.record r) =
        Except.ok (some args) ∧
      (args.request.headers.getD []).lookup "X-Asynx-Chained" =
        some (HV.str t.request.url) ∧
      (args.request.headers.getD []).lookup "X-Asynx-Chained-TaskUUID" =
        some (match t.uuid with
              | some u => HV.str u
              | Option.none => HV.none) ∧
      (args.request.headers.getD []).lookup "X-Asynx-Chained-TaskETA" =
        some (match e with
              | some x => HV.time x
              | Option.none => HV.str "-") ∧
      (args.request.headers.getD []).lookup "X-Asynx-Chained-taskCName" =
        some (HV.str c)) ∧
    (∀ u : String, startsWithHTTP u = true → ∃ args,
      Task.dispatch_callback_args t payload (Cb.str u) =
        Except.ok (some args) ∧
      (args.request.headers.getD []).lookup "X-Asynx-Chained" =
        some (HV.str t.request.url) ∧
      (args.request.headers.getD []).lookup "X-Asynx-Chained-TaskUUID" =
        some (match t.uuid with
              | some u' => HV.str u'
              | Option.none => HV.none) ∧
      (args.request.headers.getD []).lookup "X-Asynx-Chained-TaskETA" =
        some (match e with
              | some x => HV.time x
              | Option.none => HV.str "-") ∧
      (args.request.headers.getD []).lookup "X-Asynx-Chained-taskCName" =
        some (HV.str c)) := by
  constructor
  · intro r
    exact ⟨_, chain_headers_eq he hc payload r,
      (chainLookup (r.request.headers.getD []) _ _ _ c).1,
      (chainLookup (r.request.headers.getD []) _ _ _ c).2.1,
      (chainLookup (r.request.headers.getD []) _ _ _ c).2.2.1,
      (chainLookup (r.request.headers.getD []) _ _ _ c).2.2.2⟩
  · intro u hu
    have hne : u ≠ "__report__" := by
      intro hh; subst hh; exact absurd hu (by decide)
    have hred : Task.dispatch_callback_args t payload (Cb.str u) =
        Task.chain_headers t payload
          { request := { method := "POST", url := u, headers := Option.none,
                         payload := Option.none, timeout := Option.none,
                         allow_redirects := Option.none } } := by
      simp [Task.dispatch_callback_args, hne, hu]
    exact ⟨_, hred.trans (chain_headers_eq he hc payload _),
      (chainLookup [] _ _ _ c).1,
      (chainLookup [] _ _ _ c).2.1,
      (chainLookup [] _ _ _ c).2.2.1,
      (chainLookup [] _ _ _ c).2.2.2⟩

/-- C9 witness. -/
theorem c9_chain_header_keys_witness :
    parentEx.cname = some "thistask" ∧
    parentEx.etaSlot = Slot.val (some 99) ∧
    startsWithHTTP "http://cb" = true ∧
    (∃ args, Task.dispatch_callback_args parentEx "PL" (Cb.str "http://cb") =
        Except.ok (some args) ∧
      (args.request.headers.getD []).lookup "X-Asynx-Chained" =
        some (HV.str parentEx.request.url) ∧
      (args.request.headers.getD []).lookup "X-Asynx-Chained-TaskUUID" =
        some (match parentEx.uuid with
              | some u' => HV.str u'
              | Option.none => HV.none) ∧
      (args.request.headers.getD []).lookup "X-Asynx-Chained-TaskETA" =
        some (match (some 99 : Option Int) with
              | some x => HV.time x
              | Option.none => HV.str "-") ∧
      (args.request.headers.getD []).lookup "X-Asynx-Chained-taskCName" =
        some (HV.str "thistask")) :=
  ⟨rfl, rfl, rfl,
   (c9_chain_header_keys parentEx "PL" "thistask" (some 99) rfl rfl).2
     "http://cb" rfl⟩

/-! ### add_task lemmas -/

theorem init_etaSlot {now : Int} {req : Request} {id : Option Nat}
    {u cn : Option String} {eta : Option Int} {sch : Option Sched}
    {lra : Option Int} {st : String} {os onf oc : Cb} {cd : Option Int}
    (h : cd ≠ some 0) :
    (Task.init now req id u cn cd eta sch lra st os onf oc).etaSlot =
      Slot.val (match cd with
                | Option.none => eta
                | some c => some (now + c)) := by
  cases cd with
  | none => rfl
  | some c =>
      have hc : ¬(c = 0) := fun hh => h (by rw [hh])
      simp [Task.init, hc]

theorem to_dict_ok {now : Int} {t : Task} {v : Option Int}
    (h : t.etaSlot = Slot.val v) :
    Task.to_dict now t = Except.ok
      { request := t.request, id := t.id, uuid := t.uuid, cname := t.cname,
        countdown := (match v with
                      | some e => some (e - now)
                      | Option.none => Option.none),
        eta := v, schedule := t.schedule, last_run_at := t.last_run_at,
        status := t.status, on_success := t.on_success,
        on_failure := t.on_failure, on_complete := t.on_complete } := by
  cases v <;>
    simp [Task.to_dict, Task.countdown, Task.eta, h, bind, Except.bind,
      pure, Except.pure]

theorem to_redis_ok {now : Int} {t : Task} {v : Option Int}
    (h : t.etaSlot = Slot.val v) :
    Task.to_redis now t = Except.ok (t.id,
      [("request", Val.req t.request), ("uuid", encOptStr t.uuid),
       ("cname", encOptStr t.cname), ("eta", encOptTime v),
       ("schedule", match t.schedule with
                    | Option.none => Val.none
                    | some sc => Val.str (schedToString sc)),
       ("last_run_at", encOptTime t.last_run_at),
       ("status", Val.str t.status), ("on_success", Val.cb t.on_success),
       ("on_failure", Val.cb t.on_failure),
       ("on_complete", Val.cb t.on_complete)]) := by
  simp [Task.to_redis, to_dict_ok h, bind, Except.bind, pure, Except.pure]

theorem apply_async_ok {env : Env} {t : Task} (lra : Int) {v : Option Int}
    (h : t.etaSlot = Slot.val v) :
    ∃ st', Task.apply_async env t lra =
      Except.ok { t with status := st', uuid := some env.subUuid } := by
  rcases hs : t.schedule with _ | sc
  · cases v with
    | none =>
        refine ⟨t.status, ?_⟩
        simp [Task.apply_async, hs, Task.eta, h, bind, Except.bind, pure,
          Except.pure]
    | some e =>
        by_cases h1 : e - env.now ≤ 0
        · refine ⟨t.status, ?_⟩
          simp [Task.apply_async, hs, Task.eta, h, h1, bind, Except.bind,
            pure, Except.pure]
        · by_cases h2 : e - env.now > 500000
          · refine ⟨"delayed", ?_⟩
            simp [Task.apply_async, hs, Task.eta, h, h1, h2, bind,
              Except.bind, pure, Except.pure]
          · refine ⟨t.status, ?_⟩
            simp [Task.apply_async, hs, Task.eta, h, h1, h2, bind,
              Except.bind, pure, Except.pure]
  · rcases hdue : Sched.is_due env sc lra with ⟨d, rem⟩
    cases d with
    | true =>
        refine ⟨t.status, ?_⟩
        simp [Task.apply_async, hs, hdue, bind, Except.bind, pure,
          Except.pure]
    | false =>
        by_cases h2 : rem > 500000
        · refine ⟨"scheduled", ?_⟩
          simp [Task.apply_async, hs, hdue, h2, bind, Except.bind, pure,
            Except.pure]
        · refine ⟨t.status, ?_⟩
          simp [Task.apply_async, hs, hdue, h2, bind, Except.bind, pure,
            Except.pure]

theorem dispatch_task_ok {s : Store} {env : Env} {t : Task} {idx : Nat}
    {t' : Task} (hid : t.id = some idx)
    (h : Task.apply_async env t (t.last_run_at.getD env.now) =
      Except.ok t') :
    TaskQueue.dispatch_task_impl s env t =
      ({ s with
          meta := setFun s.meta idx (some (hset (hset ((s.meta idx).getD [])
            "uuid" (encOptStr t'.uuid)) "status" (Val.str t'.status))),
          uuidIdx := zadd (match t.uuid with
            | some u0 => zrem s.uuidIdx u0
            | Option.none => s.uuidIdx) idx (encMember t'.uuid) },
       Except.ok t') := by
  rcases hu : t.uuid with _ | u0 <;>
    simp [TaskQueue.dispatch_task_impl, hid, h, hu]

/-- C1 counterexample.  `add_task` can fail with `TaskAlreadyExists`
while having changed store state: on a `WATCH` conflict (a concurrent
writer touched the cname key between `WATCH` and `EXEC`), the `HINCRBY`
that allocated the id — issued on the main connection, outside the
queued transaction — has already taken effect, so the `AX:INC` counter
has advanced from 0 to 1 even though the call raised `AlreadyExists`. -/
theorem c1_counterexample :
    (TaskQueue.add_task store0 (envEx true) reqEx (some "task001")
      Option.none Option.none Option.none Cb.none (Cb.str "__report__")
      Cb.none).2 = Except.error Err.alreadyExists ∧
    (TaskQueue.add_task store0 (envEx true) reqEx (some "task001")
      Option.none Option.none Option.none Cb.none (Cb.str "__report__")
      Cb.none).1.inc = 1 ∧
    store0.inc = 0 :=
  ⟨rfl, rfl, rfl⟩

/-- C1 (amended).  For an `add_task` with a cname: the cname
reservation, the meta-hash write and the schedule-index insert commit
together atomically at `EXEC`, but the id allocation is an immediate
`HINCRBY` on the main connection issued before `EXEC`.  When the cname
already exists at the `WATCH`ed check, the call fails with
`AlreadyExists` and no store state has changed; when it fails with
`AlreadyExists` because of a `WATCH` conflict, the id counter — and
nothing else — has changed; on success all three queued writes are
present together.  (`countdown ≠ 0` keeps the row-encoding step from
failing for the unrelated reason of claim C10.) -/
theorem c1_add_task_commit (s : Store) (env : Env) (req : Request)
    (c : String) (countdown : Option Int) (eta : Option Int)
    (schedule : Option Sched) (os onf oc : Cb) :
    ((s.cname c).isSome →
      TaskQueue.add_task s env req (some c) countdown eta schedule
        os onf oc = (s, Except.error Err.alreadyExists)) ∧
    (s.cname c = Option.none → env.conflict = true → countdown ≠ some 0 →
      TaskQueue.add_task s env req (some c) countdown eta schedule
        os onf oc =
        ({ s with inc := s.inc + 1 }, Except.error Err.alreadyExists)) ∧
    (s.cname c = Option.none → env.conflict = false → countdown ≠ some 0 →
      (TaskQueue.add_task s env req (some c) countdown eta schedule
        os onf oc).1.cname c = some (s.inc + 1) ∧
      ((TaskQueue.add_task s env req (some c) countdown eta schedule
        os onf oc).1.meta (s.inc + 1)).isSome ∧
      (schedule.isSome → (s.inc + 1) ∈
        (TaskQueue.add_task s env req (some c) countdown eta schedule
          os onf oc).1.sched) ∧
      (schedule = Option.none →
        (TaskQueue.add_task s env req (some c) countdown eta schedule
          os onf oc).1.sched = s.sched)) := by
  refine ⟨?_, ?_, ?_⟩
  · intro hs
    obtain ⟨i, hi⟩ := Option.isSome_iff_exists.mp hs
    simp [TaskQueue.add_task, Task.init, hi]
  · intro hcn hcf hcd
    cases countdown with
    | none =>
        cases eta <;>
          simp [TaskQueue.add_task, Task.init, Task.to_redis, Task.to_dict,
            Task.countdown, Task.eta, hcn, hcf, bind, Except.bind, pure,
            Except.pure]
    | some cd =>
        have hcd0 : ¬(cd = 0) := fun hh => hcd (by rw [hh])
        simp [TaskQueue.add_task, Task.init, Task.to_redis, Task.to_dict,
          Task.countdown, Task.eta, hcn, hcf, hcd0, bind, Except.bind,
          pure, Except.pure]
  · intro hcn hcf hcd
    have hgoal : (TaskQueue.add_task s env req (some c) countdown eta
        schedule os onf oc).1.cname c = some (s.inc + 1) ∧
        ((TaskQueue.add_task s env req (some c) countdown eta schedule
          os onf oc).1.meta (s.inc + 1)).isSome ∧
        (TaskQueue.add_task s env req (some c) countdown eta schedule
          os onf oc).1.sched =
          (if schedule.isSome then s.sched ++ [s.inc + 1] else s.sched) := by
      refine ⟨?_, ?_, ?_⟩ <;>
      · rcases schedule with _ | sc
        all_goals try (rcases sc with m | ⟨f1, f2, f3, f4, f5⟩)
        all_goals rcases countdown with _ | cd
        all_goals try (cases eta)
        all_goals try (have hcd0 : ¬(cd = 0) := fun hh => hcd (by rw [hh]))
        all_goals
          (simp [TaskQueue.add_task, Task.init, Task.to_redis, Task.to_dict,
            Task.countdown, Task.eta, Task.apply_async,
            TaskQueue.dispatch_task_impl, Sched.is_due, bind, Except.bind,
            pure, Except.pure, setFun, *] <;>
           try (split_ifs <;> simp [setFun]))
    refine ⟨hgoal.1, hgoal.2.1, ?_, ?_⟩
    · intro hss
      rw [hgoal.2.2, if_pos hss]
      simp
    · intro hnone
      rw [hgoal.2.2, hnone]
      simp

/-- C1 witness. -/
theorem c1_add_task_commit_witness :
    (storeEx "new").cname "ca" = some 1 ∧
    TaskQueue.add_task (storeEx "new") (envEx false) reqEx (some "ca")
      Option.none Option.none Option.none Cb.none (Cb.str "__report__")
      Cb.none = (storeEx "new", Except.error Err.alreadyExists) ∧
    store0.cname "n" = Option.none ∧
    TaskQueue.add_task store0 (envEx true) reqEx (some "n") Option.none
      Option.none Option.none Cb.none (Cb.str "__report__") Cb.none =
      ({ store0 with inc := store0.inc + 1 },
       Except.error Err.alreadyExists) ∧
    (TaskQueue.add_task store0 (envEx false) reqEx (some "n") Option.none
      Option.none Option.none Cb.none (Cb.str "__report__")
      Cb.none).1.cname "n" = some (store0.inc + 1) ∧
    ((TaskQueue.add_task store0 (envEx false) reqEx (some "n") Option.none
      Option.none Option.none Cb.none (Cb.str "__report__")
      Cb.none).1.meta (store0.inc + 1)).isSome ∧
    (TaskQueue.add_task store0 (envEx false) reqEx (some "n") Option.none
      Option.none Option.none Cb.none (Cb.str "__report__")
      Cb.none).1.sched = store0.sched :=
  ⟨rfl,
   (c1_add_task_commit (storeEx "new") (envEx false) reqEx "ca" Option.none
     Option.none Option.none Cb.none (Cb.str "__report__") Cb.none).1
     (by decide),
   rfl,
   (c1_add_task_commit store0 (envEx true) reqEx "n" Option.none
     Option.none Option.none Cb.none (Cb.str "__report__") Cb.none).2.1
     rfl rfl (by decide),
   ((c1_add_task_commit store0 (envEx false) reqEx "n" Option.none
     Option.none Option.none Cb.none (Cb.str "__report__") Cb.none).2.2
     rfl rfl (by decide)).1,
   ((c1_add_task_commit store0 (envEx false) reqEx "n" Option.none
     Option.none Option.none Cb.none (Cb.str "__report__") Cb.none).2.2
     rfl rfl (by decide)).2.1,
   ((c1_add_task_commit store0 (envEx false) reqEx "n" Option.none
     Option.none Option.none Cb.none (Cb.str "__report__") Cb.none).2.2
     rfl rfl (by decide)).2.2.2 rfl⟩

/-- C7 counterexample.  The storage round trip does NOT hold for every
task: a task whose schedule is a 50 µs interval encodes successfully —
`_to_redis` stores the schedule as the string `every 5e-05 seconds`
(scientific notation, see C8) — but `_from_redis` then raises
`ValueError` while reparsing that string, so no task at all is
recovered from the stored hash. -/
theorem c7_counterexample :
    ∃ d, Task.to_redis 100 taskC7bad = Except.ok (some 4, d) ∧
      Task.from_redis 200 4 d = Except.error Err.valueError := by
  refine ⟨_, to_redis_ok rfl, ?_⟩
  simp [Task.from_redis, Task.decode_meta, taskC7bad, dictGet, decOptTime,
    decOptStr, decCb, encOptStr, encOptTime, bind, Except.bind, pure,
    Except.pure, List.lookup, interval50_format, sci_interval_parse_fails]

/-- C7 (amended).  Storage round trip for every storable task: encoding
a task into its meta hash and decoding it back yields the task
unchanged — every view field is preserved exactly (in this UTC-only
model the timezone normalisation is the identity, and `countdown` is
not a stored field but is recomputed from the preserved `eta` at read
time) — and the stored hash contains neither an `id` nor a `countdown`
field.  The hypotheses state that the task is storable: its id is
assigned, its `_eta` slot is assigned, and its schedule (if any) is a
supported form in the sense of C8's amendment (an interval between
`1e-4` and `2^33` seconds, or a numeric five-field cron); outside that
— see the counterexample — a task can encode yet fail to decode. -/
theorem c7_storage_roundtrip (now now2 : Int) (t : Task) (i : Nat)
    (v : Option Int) (hid : t.id = some i) (heta : t.etaSlot = Slot.val v)
    (hsched : ∀ sc, t.schedule = some sc → sc.WF) :
    ∃ d, Task.to_redis now t = Except.ok (some i, d) ∧
      Task.from_redis now2 i d = Except.ok t ∧
      d.lookup "id" = Option.none ∧ d.lookup "countdown" = Option.none := by
  obtain ⟨req, id, uuid, cname, slot, sched, lra, st, os, onf, oc⟩ := t
  simp only at hid heta hsched
  subst hid
  subst heta
  refine ⟨_, to_redis_ok rfl, ?_, ?_, ?_⟩
  · rcases sched with _ | sc
    · cases uuid <;> cases cname <;> cases v <;> cases lra <;>
        simp [Task.from_redis, Task.decode_meta, dictGet, decOptTime,
          decOptStr, decCb, encOptStr, encOptTime, Task.init, bind,
          Except.bind, pure, Except.pure, List.lookup]
    · have hWF := hsched sc rfl
      cases uuid <;> cases cname <;> cases v <;> cases lra <;>
        simp [Task.from_redis, Task.decode_meta, dictGet, decOptTime,
          decOptStr, decCb, encOptStr, encOptTime, Task.init, bind,
          Except.bind, pure, Except.pure, List.lookup, sched_roundtrip hWF]
  · rfl
  · rfl

/-- C7 witness. -/
theorem c7_storage_roundtrip_witness :
    taskC7.id = some 3 ∧ taskC7.etaSlot = Slot.val (some 5) ∧
    (∃ d, Task.to_redis 100 taskC7 = Except.ok (some 3, d) ∧
      Task.from_redis 200 3 d = Except.ok taskC7 ∧
      d.lookup "id" = Option.none ∧ d.lookup "countdown" = Option.none) :=
  ⟨rfl, rfl,
   c7_storage_roundtrip 100 200 taskC7 3 (some 5) rfl rfl
     (by intro sc h; cases h; decide)⟩

end Asynx
